import Mathlib

/-!
Verification of the transactional filepath storage coordinator of the
qiita database layer (`qiita_db/util.py`).  The Python source is embedded
shallowly: the filesystem is an association list from paths to entries,
SQL tables are lists of records, and the statement queue / hook lists of
the transaction object are explicit state.  The crc32 checksum primitive
and the SQL store are external collaborators and are kept abstract
(`crc : String → Nat`, query tags instead of SQL text).
-/

namespace Qiita

/-! ## Paths and the filesystem model -/

abbrev Path := String

/-- `pre` is a prefix of `s` (computed on the character lists so that the
kernel can evaluate it). -/
def strIsPrefixOf (pre s : String) : Bool := pre.data.isPrefixOf s.data

/-- Split a character list at every slash. -/
def splitSlash : List Char → List (List Char)
  | [] => [[]]
  | c :: t =>
    if c = '/' then [] :: splitSlash t
    else
      match splitSlash t with
      | [] => [[c]]
      | h :: r => (c :: h) :: r

/-- Model of `os.path.join` for two components: if the second component is
absolute it replaces the first, otherwise they are joined with a slash. -/
def pjoin (a b : Path) : Path := if strIsPrefixOf "/" b then b else a ++ "/" ++ b

/-- Model of `os.path.basename`: the last slash-separated component. -/
def basename (p : Path) : Path := String.mk ((splitSlash p.data).getLastD p.data)

/-- A filesystem entry: a directory marker or a file with its byte content. -/
structure Entry where
  isDir : Bool
  data : String
deriving DecidableEq

/-- The filesystem: an association list from absolute paths to entries. -/
abbrev FS := List (Path × Entry)

def FS.lookup : FS → Path → Option Entry
  | [], _ => none
  | e :: t, p => if e.1 = p then some e.2 else FS.lookup t p

/-- Model of `os.path.exists`. -/
def FS.existsP (fs : FS) (p : Path) : Bool := (FS.lookup fs p).isSome

def FS.erase : FS → Path → FS
  | [], _ => []
  | e :: t, p => if e.1 = p then FS.erase t p else e :: FS.erase t p

/-- Insert (or overwrite) the entry at a path. -/
def FS.insertP (fs : FS) (p : Path) (v : Entry) : FS := (p, v) :: FS.erase fs p

/-- Model of `shutil.move` for a single entry: if the source exists it is
re-registered at the destination (overwriting it) and removed from the
source; a missing source leaves the filesystem unchanged (the checked
embedding of the ingestion pipeline reports missing sources as errors
before this function is reached). -/
def fsMove (src dst : Path) (fs : FS) : FS :=
  match FS.lookup fs src with
  | some v => FS.insertP (FS.erase fs src) dst v
  | none => fs

/-- Model of `os.remove`. -/
def fsRemove (p : Path) (fs : FS) : FS := FS.erase fs p

/-- Model of `shutil.rmtree`: removes the directory entry and every entry
below it. -/
def fsRmtree : Path → FS → FS
  | _, [] => []
  | p, e :: t =>
      if e.1 = p ∨ strIsPrefixOf (p ++ "/") e.1 = true then fsRmtree p t
      else e :: fsRmtree p t

/-- The file content stored at a path (empty for directories and missing
paths); used to phrase checksum statements. -/
def contentAt (fs : FS) (p : Path) : String :=
  match FS.lookup fs p with
  | some e => if e.isDir then "" else e.data
  | none => ""

/-- A path holds a plain file (not a directory). -/
def isFile (fs : FS) (p : Path) : Bool :=
  match FS.lookup fs p with
  | some e => !e.isDir
  | none => false

/-- The file (non-directory) content visible at a path, if any. -/
def fileAt (fs : FS) (p : Path) : Option String :=
  match FS.lookup fs p with
  | some e => if e.isDir then none else some e.data
  | none => none

/-- Executable check that two filesystems agree on every file entry
(directories are ignored: they carry no data). -/
def fsFilesEqual (a b : FS) : Bool :=
  (a.map Prod.fst ++ b.map Prod.fst).all (fun p => fileAt a p == fileAt b p)

/-! ## Deferred filesystem actions and the transaction state

The transaction object `qdb.sql_connection.TRN` itself is not part of the
sources under study; the hook semantics below are modelled from the spec:
post-commit functions run only after the underlying commit succeeds, in
registration order, and post-rollback functions run only if the
transaction is rolled back, in reverse registration order. -/

/-- A deferred filesystem side effect registered on the transaction. -/
inductive FSAction
  | move (src dst : Path)
  | remove (p : Path)
  | rmtree (p : Path)
deriving DecidableEq

def runAction : FSAction → FS → FS
  | .move s d, fs => fsMove s d fs
  | .remove p, fs => fsRemove p fs
  | .rmtree p, fs => fsRmtree p fs

/-- Abstract tags for the SQL statements issued by the embedded functions. -/
inductive Query
  | selectDataDirectory (dataType : String)
  | selectTypeId (value : String)
  | insertFilepathRow (filepath : String) (typeId checksum algId ddId : Nat)
  | fkCatalog
  | selectUnreferenced
  | deleteFilepath (fpId : Nat)
  | selectMountpointById (ddId : Nat)
deriving DecidableEq

/-- Modelled from the spec: the state of the shared transaction object —
the queue of issued statements plus the ordered post-commit and
post-rollback hook lists (`qiita_db/sql_connection.py` is outside the
sources under study). -/
structure TxnState where
  queries : List Query
  postCommit : List FSAction
  postRollback : List FSAction
deriving DecidableEq

def TxnState.empty : TxnState := ⟨[], [], []⟩

/-- Modelled from the spec: on a successful commit the post-commit hooks
run in registration order. -/
def commitFS (t : TxnState) (fs : FS) : FS :=
  t.postCommit.foldl (fun f a => runAction a f) fs

/-- Modelled from the spec: on rollback the compensations run in reverse
registration order (most recent side effect undone first); post-commit
hooks do not run. -/
def rollbackFS (t : TxnState) (fs : FS) : FS :=
  t.postRollback.reverse.foldl (fun f a => runAction a f) fs

/-! ## Basic filesystem lemmas -/

theorem lookup_erase (fs : FS) (p q : Path) :
    FS.lookup (FS.erase fs p) q = if q = p then none else FS.lookup fs q := by
  induction fs with
  | nil => simp [FS.erase, FS.lookup]
  | cons e t ih =>
    by_cases h1 : e.1 = p
    · rw [show FS.erase (e :: t) p = FS.erase t p by simp [FS.erase, h1], ih]
      by_cases h2 : q = p
      · simp [h2]
      · have h3 : ¬ e.1 = q := by rw [h1]; exact fun hh => h2 hh.symm
        simp [FS.lookup, h2, h3]
    · rw [show FS.erase (e :: t) p = e :: FS.erase t p by simp [FS.erase, h1]]
      by_cases h2 : e.1 = q
      · have h3 : ¬ q = p := fun hh => h1 (by rw [h2, hh])
        simp [FS.lookup, h2, h3]
      · simp [FS.lookup, h2, ih]

theorem lookup_insertP (fs : FS) (p q : Path) (v : Entry) :
    FS.lookup (FS.insertP fs p v) q = if q = p then some v else FS.lookup fs q := by
  by_cases h : q = p <;>
    simp [FS.insertP, FS.lookup, h, lookup_erase, eq_comm (a := p) (b := q)]

theorem lookup_rmtree_of_none (fs : FS) (p q : Path)
    (h : FS.lookup fs q = none) : FS.lookup (fsRmtree p fs) q = none := by
  induction fs with
  | nil => simp [fsRmtree, FS.lookup]
  | cons e t ih =>
    simp only [FS.lookup] at h
    by_cases h1 : e.1 = q
    · simp [h1] at h
    · simp only [FS.lookup, if_neg h1] at h
      by_cases h2 : e.1 = p ∨ strIsPrefixOf (p ++ "/") e.1 = true
      · simpa [fsRmtree, h2] using ih h
      · simp [fsRmtree, h2, FS.lookup, h1, ih h]

/-- Removal actions (as opposed to moves). -/
def isRemoval : FSAction → Bool
  | .move _ _ => false
  | .remove _ => true
  | .rmtree _ => true

theorem run_removal_preserves_none (a : FSAction) (fs : FS) (q : Path)
    (ha : isRemoval a = true) (h : FS.lookup fs q = none) :
    FS.lookup (runAction a fs) q = none := by
  cases a with
  | move s d => simp [isRemoval] at ha
  | remove p => simp [runAction, fsRemove, lookup_erase, h]
  | rmtree p => exact lookup_rmtree_of_none fs p q h

theorem foldl_removals_preserve_none (acts : List FSAction) (fs : FS) (q : Path)
    (ha : ∀ a ∈ acts, isRemoval a = true) (h : FS.lookup fs q = none) :
    FS.lookup (acts.foldl (fun f a => runAction a f) fs) q = none := by
  induction acts generalizing fs with
  | nil => simpa using h
  | cons a t ih =>
    simp only [List.foldl_cons]
    exact ih (runAction a fs) (fun x hx => ha x (List.mem_cons_of_mem a hx))
      (run_removal_preserves_none a fs q (ha a (List.mem_cons_self a t)) h)

theorem foldl_remove_mem_gone (acts : List FSAction) (fs : FS) (p : Path)
    (hmem : FSAction.remove p ∈ acts) (ha : ∀ a ∈ acts, isRemoval a = true) :
    FS.lookup (acts.foldl (fun f a => runAction a f) fs) p = none := by
  induction acts generalizing fs with
  | nil => simp at hmem
  | cons a t ih =>
    simp only [List.foldl_cons]
    rcases List.mem_cons.1 hmem with heq | htail
    · subst heq
      exact foldl_removals_preserve_none t (runAction (FSAction.remove p) fs) p
        (fun x hx => ha x (List.mem_cons_of_mem _ hx))
        (by simp [runAction, fsRemove, lookup_erase])
    · exact ih (runAction a fs) htail (fun x hx => ha x (List.mem_cons_of_mem a hx))

/-! ## MountpointRegistry: `get_mountpoint` (src/qiita_db/util.py lines 510-544)

A row of the `qiita.data_directory` table. -/

structure DataDirRow where
  id : Nat
  mountpoint : String
  subdirectory : Bool
  active : Bool
  dataType : String
deriving DecidableEq

/-- The rows returned by the two SQL queries of `get_mountpoint`: with
`retrieve_all` the rows of the category ordered by `active DESC`
(active generations first), otherwise only the active rows. -/
def mountRows (tbl : List DataDirRow) (mountType : String) :
    Bool → List DataDirRow
  | true =>
    tbl.filter (fun r => r.dataType = mountType ∧ r.active = true) ++
    tbl.filter (fun r => r.dataType = mountType ∧ r.active = false)
  | false =>
    tbl.filter (fun r => r.dataType = mountType ∧ r.active = true)

/-- Embedding of `get_mountpoint` without `retrieve_subdir`: pairs
`(data_directory_id, join(basedir, mountpoint))`. -/
def get_mountpoint (tbl : List DataDirRow) (basedir : String) (mountType : String)
    (retrieveAll : Bool) : List (Nat × String) :=
  (mountRows tbl mountType retrieveAll).map (fun r => (r.id, pjoin basedir r.mountpoint))

/-- Embedding of `get_mountpoint` with `retrieve_subdir=True`: triples
`(data_directory_id, join(basedir, mountpoint), subdirectory)`. -/
def get_mountpoint_subdir (tbl : List DataDirRow) (basedir : String) (mountType : String)
    (retrieveAll : Bool) : List (Nat × String × Bool) :=
  (mountRows tbl mountType retrieveAll).map
    (fun r => (r.id, pjoin basedir r.mountpoint, r.subdirectory))

/-- Claim C4: for a category with exactly one active generation,
`get_mountpoint(category)` returns only that active generation, and
`get_mountpoint(category, retrieve_all=True)` returns the active
generation first, followed by all inactive generations of the category. -/
theorem get_mountpoint_active_generation (tbl : List DataDirRow) (basedir cat : String)
    (a : DataDirRow)
    (h : tbl.filter (fun r => r.dataType = cat ∧ r.active = true) = [a]) :
    get_mountpoint tbl basedir cat false = [(a.id, pjoin basedir a.mountpoint)] ∧
    get_mountpoint tbl basedir cat true =
      (a.id, pjoin basedir a.mountpoint) ::
      (tbl.filter (fun r => r.dataType = cat ∧ r.active = false)).map
        (fun r => (r.id, pjoin basedir r.mountpoint)) := by
  constructor
  · show (mountRows tbl cat false).map _ = _
    rw [show mountRows tbl cat false =
      tbl.filter (fun r => r.dataType = cat ∧ r.active = true) from rfl, h]
    rfl
  · show (mountRows tbl cat true).map _ = _
    rw [show mountRows tbl cat true =
      tbl.filter (fun r => r.dataType = cat ∧ r.active = true) ++
      tbl.filter (fun r => r.dataType = cat ∧ r.active = false) from rfl, h]
    rfl

/-- Witness for C4 at a concrete two-generation table. -/
theorem get_mountpoint_active_generation_witness :
    ([⟨5, "raw_data_new", false, true, "raw_data"⟩,
      ⟨2, "raw_data_old", false, false, "raw_data"⟩] :
        List DataDirRow).filter (fun r => r.dataType = "raw_data" ∧ r.active = true) =
      [⟨5, "raw_data_new", false, true, "raw_data"⟩] ∧
    get_mountpoint [⟨5, "raw_data_new", false, true, "raw_data"⟩,
      ⟨2, "raw_data_old", false, false, "raw_data"⟩] "/base" "raw_data" false =
      [(5, pjoin "/base" "raw_data_new")] ∧
    get_mountpoint [⟨5, "raw_data_new", false, true, "raw_data"⟩,
      ⟨2, "raw_data_old", false, false, "raw_data"⟩] "/base" "raw_data" true =
      (5, pjoin "/base" "raw_data_new") ::
      (([⟨5, "raw_data_new", false, true, "raw_data"⟩,
        ⟨2, "raw_data_old", false, false, "raw_data"⟩] :
          List DataDirRow).filter (fun r => r.dataType = "raw_data" ∧ r.active = false)).map
        (fun r => (r.id, pjoin "/base" r.mountpoint)) := by
  refine ⟨by decide, ?_⟩
  exact get_mountpoint_active_generation
    [⟨5, "raw_data_new", false, true, "raw_data"⟩,
     ⟨2, "raw_data_old", false, false, "raw_data"⟩]
    "/base" "raw_data" ⟨5, "raw_data_new", false, true, "raw_data"⟩ (by decide)

/-! ## FilepathIngestor: `insert_filepaths` (src/qiita_db/util.py lines 568-651) -/

/-- Error taxonomy.  `qiita_db/exceptions.py` is outside the sources under
study; the spec classifies unknown category / type tag / mountpoint
failures as `LookupError` (raised as `QiitaDBLookupError`), so the lookup
failure carries its own constructor here. -/
inductive QErr
  | lookupError (value : String)
  | indexError
  | fileError (path : Path)
  | nameError
  | trashFolderError (folder : String)
  | folderIdError (fid : Nat)
  | studyFolderError (study : Nat)
  | missingFileError (path : Path)
deriving DecidableEq

/-- A filepath type tag: either a stable integer id or a human-readable
string that must be looked up (`isinstance(x, (int, long))`). -/
inductive TypeTag
  | id (n : Nat)
  | name (s : String)
deriving DecidableEq

/-- A row inserted into the filepath table: `[path, pid, checksum, 1, dd_id]`
for the columns `(filepath, filepath_type_id, checksum,
checksum_algorithm_id, data_directory_id)`. -/
structure FilepathRow where
  filepath : String
  typeId : Nat
  checksum : Nat
  algId : Nat
  ddId : Nat
deriving DecidableEq

/-- Embedding of `convert_to_id` (src lines 940-973) for the
`filepath_type` table, modelled as `(filepath_type_id, filepath_type)`
pairs; issues one lookup query and fails with the lookup error when the
string has no associated id. -/
def convert_to_id (tbl : List (Nat × String)) (value : String) (txn : TxnState) :
    Except QErr (Nat × TxnState) :=
  let txn1 : TxnState := { txn with queries := txn.queries ++ [Query.selectTypeId value] }
  match tbl.find? (fun r => r.2 = value) with
  | some r => .ok (r.1, txn1)
  | none => .error (.lookupError value)

/-- Embedding of the local `str_to_id` of `insert_filepaths` (src lines
631-633): integer tags pass through untouched, strings are resolved. -/
def str_to_id (tbl : List (Nat × String)) : TypeTag → TxnState → Except QErr (Nat × TxnState)
  | .id n, txn => .ok (n, txn)
  | .name s, txn => convert_to_id tbl s txn

/-- Embedding of `compute_checksum` (src lines 403-436).  The streaming
crc32 accumulation over the lines of the file is abstracted to an
uninterpreted function `crc` of the full content (for a directory, of the
concatenated contents of the files below it, as the source walks them); a
missing path makes `open` fail. -/
def compute_checksum (crc : String → Nat) (fs : FS) (path : Path) : Except QErr Nat :=
  match FS.lookup fs path with
  | none => .error (.fileError path)
  | some e =>
    if e.isDir then
      .ok (crc (String.join ((fs.filter
        (fun x => strIsPrefixOf (path ++ "/") x.1 && !x.2.isDir)).map (fun x => x.2.data))))
    else .ok (crc e.data)

/-- The destination of one transferred file (src lines 607-621): under a
subdirectory mountpoint `root/obj_id/basename(source)`, otherwise flat
`root/obj_id_basename(source)`. -/
def destPath (base_fp : Path) (subdir : Bool) (obj_id : Nat) (src : Path) : Path :=
  if subdir then pjoin (pjoin base_fp (toString obj_id)) (basename src)
  else pjoin base_fp (toString obj_id ++ "_" ++ basename src)

/-- The transfer of one file (src lines 622-625): `shutil.copy` keeps the
source, `shutil.move` removes it; a missing source is a transfer error. -/
def transferOne (copy : Bool) (src dst : Path) (fs : FS) : Except QErr FS :=
  match FS.lookup fs src with
  | none => .error (.fileError src)
  | some v => .ok (if copy then FS.insertP fs dst v else FS.insertP (FS.erase fs src) dst v)

/-- The transfer loop of `insert_filepaths` (src lines 622-629): each
`(old, new)` pair is transferred and a rollback compensation
`move(new, old)` is registered immediately afterwards. -/
def doTransfers (copy : Bool) : List (Path × Path) → FS → TxnState → Except QErr (FS × TxnState)
  | [], fs, txn => .ok (fs, txn)
  | (old, new) :: rest, fs, txn =>
    match transferOne copy old new fs with
    | .error e => .error e
    | .ok fs1 =>
      doTransfers copy rest fs1
        { txn with postRollback := txn.postRollback ++ [FSAction.move new old] }

/-- The per-file tuple construction of `insert_filepaths` (src lines
634-636): `(basename(path), str_to_id(id_), compute_checksum(path))`,
evaluated left to right for each file in order. -/
def resolveRows (fpTypeTbl : List (Nat × String)) (crc : String → Nat) (fs : FS) :
    List (Path × TypeTag) → TxnState → Except QErr (List (String × Nat × Nat) × TxnState)
  | [], txn => .ok ([], txn)
  | (path, tag) :: rest, txn =>
    match str_to_id fpTypeTbl tag txn with
    | .error e => .error e
    | .ok (pid, txn1) =>
      match compute_checksum crc fs path with
      | .error e => .error e
      | .ok cs =>
        match resolveRows fpTypeTbl crc fs rest txn1 with
        | .error e => .error e
        | .ok (tl, txn2) => .ok ((basename path, pid, cs) :: tl, txn2)

/-- The result of `insert_filepaths`: generated ids (from
`RETURNING filepath_id`, one per batched insert in submission order), the
inserted rows, the filesystem after the transfers, and the transaction
state. -/
structure InsertOut where
  ids : List Nat
  rows : List FilepathRow
  fs : FS
  txn : TxnState
deriving DecidableEq

/-- The tail of `insert_filepaths` (src lines 631-651): resolve type ids
and checksums, build the value rows, enqueue one insert per row
(`many=True`) and return the generated ids in input order. -/
def insertRowsStep (fpTypeTbl : List (Nat × String)) (crc : String → Nat) (dd_id : Nat)
    (nextId : Nat) (new_filepaths : List (Path × TypeTag)) (fs : FS) (txn : TxnState) :
    Except QErr InsertOut :=
  match resolveRows fpTypeTbl crc fs new_filepaths txn with
  | .error e => .error e
  | .ok (pwc, txn1) =>
    let rows := pwc.map (fun t => FilepathRow.mk t.1 t.2.1 t.2.2 1 dd_id)
    let qs := rows.map
      (fun r => Query.insertFilepathRow r.filepath r.typeId r.checksum r.algId r.ddId)
    let txn2 : TxnState := { txn1 with queries := txn1.queries ++ qs }
    .ok ⟨(List.range rows.length).map (fun i => nextId + i), rows, fs, txn2⟩

/-- Embedding of `insert_filepaths` (src lines 568-651).  The mountpoint
of `table` is resolved first — one query issued even for an empty input
list, `IndexError` if the category has no active mountpoint.  The source
joins the base directory onto the already-joined mountpoint path
(`base_fp = join(get_db_files_base_dir(), mp)`), which `pjoin` absorbs
when the base directory is absolute.  With `move_files` the files are
transferred to their destination names (creating `root/obj_id` first
under a subdirectory mountpoint) with a rollback compensation per file;
the generated ids `nextId, nextId+1, …` model the `RETURNING` values of
the batched insert. -/
def insert_filepaths (fpTypeTbl : List (Nat × String)) (ddTbl : List DataDirRow)
    (basedir : String) (crc : String → Nat) (filepaths : List (Path × TypeTag))
    (obj_id : Nat) (table : String) (move_files : Bool) (copy : Bool)
    (fs : FS) (txn : TxnState) (nextId : Nat) : Except QErr InsertOut :=
  let txn0 : TxnState := { txn with queries := txn.queries ++ [Query.selectDataDirectory table] }
  match get_mountpoint_subdir ddTbl basedir table false with
  | [] => .error .indexError
  | (dd_id, mp, subdir) :: _ =>
    let base_fp := pjoin basedir mp
    if move_files then
      let dirname := pjoin base_fp (toString obj_id)
      let fs0 := if subdir ∧ FS.existsP fs dirname = false
        then FS.insertP fs dirname ⟨true, ""⟩ else fs
      let new_filepaths := filepaths.map
        (fun pr => (destPath base_fp subdir obj_id pr.1, pr.2))
      match doTransfers copy
          ((filepaths.zip new_filepaths).map (fun z => (z.1.1, z.2.1))) fs0 txn0 with
      | .error e => .error e
      | .ok (fs1, txn1) => insertRowsStep fpTypeTbl crc dd_id nextId new_filepaths fs1 txn1
    else
      insertRowsStep fpTypeTbl crc dd_id nextId filepaths fs txn0

/-! ## Lemmas about the transfer loop -/

/-- Well-formedness of a transfer batch over a filesystem: every source
exists, every destination is fresh, and later pairs do not touch the
current pair's paths. -/
def TransferOK (fs : FS) : List (Path × Path) → Prop
  | [] => True
  | (s, d) :: t =>
    (FS.lookup fs s).isSome = true ∧ FS.lookup fs d = none ∧ s ≠ d ∧
    (∀ pr ∈ t, pr.1 ≠ s ∧ pr.1 ≠ d ∧ pr.2 ≠ s ∧ pr.2 ≠ d) ∧
    TransferOK fs t

/-- The filesystem after moving each pair in order. -/
def transfersFS : List (Path × Path) → FS → FS
  | [], fs => fs
  | (s, d) :: t, fs => transfersFS t (fsMove s d fs)

/-- Undo a batch of transfers the way `rollbackFS` runs the registered
compensations: most recent transfer first. -/
def undoFS (prs : List (Path × Path)) (fs : FS) : FS :=
  (prs.map (fun pr => FSAction.move pr.2 pr.1)).reverse.foldl (fun f a => runAction a f) fs

theorem undoFS_cons (s d : Path) (t : List (Path × Path)) (fs : FS) :
    undoFS ((s, d) :: t) fs = fsMove d s (undoFS t fs) := by
  simp [undoFS, List.foldl_append, runAction]

theorem lookup_fsMove_of_ne (s d q : Path) (fs : FS) (hqs : q ≠ s) (hqd : q ≠ d) :
    FS.lookup (fsMove s d fs) q = FS.lookup fs q := by
  unfold fsMove
  cases h : FS.lookup fs s with
  | none => rfl
  | some v => simp [lookup_insertP, lookup_erase, hqs, hqd]

theorem lookup_fsMove_dst (s d : Path) (fs : FS) (v : Entry)
    (hs : FS.lookup fs s = some v) :
    FS.lookup (fsMove s d fs) d = some v := by
  simp [fsMove, hs, lookup_insertP]

theorem lookup_fsMove_src (s d : Path) (fs : FS) (v : Entry)
    (hs : FS.lookup fs s = some v) (hsd : s ≠ d) :
    FS.lookup (fsMove s d fs) s = none := by
  rw [show fsMove s d fs = FS.insertP (FS.erase fs s) d v by simp [fsMove, hs],
    lookup_insertP]
  simp [hsd, lookup_erase]

theorem transferOK_tail_move (fs : FS) (s d : Path) (t : List (Path × Path))
    (havoid : ∀ pr ∈ t, pr.1 ≠ s ∧ pr.1 ≠ d ∧ pr.2 ≠ s ∧ pr.2 ≠ d)
    (h : TransferOK fs t) : TransferOK (fsMove s d fs) t := by
  induction t with
  | nil => trivial
  | cons pr rest ih =>
    obtain ⟨p1, p2⟩ := pr
    obtain ⟨h1, h2, h3, h4, h5⟩ := h
    obtain ⟨a1, a2, a3, a4⟩ := havoid (p1, p2) (List.mem_cons_self _ _)
    refine ⟨?_, ?_, h3, h4, ?_⟩
    · rw [lookup_fsMove_of_ne s d p1 fs a1 a2]; exact h1
    · rw [lookup_fsMove_of_ne s d p2 fs a3 a4]; exact h2
    · exact ih (fun x hx => havoid x (List.mem_cons_of_mem _ hx)) h5

theorem transfersFS_preserves_lookup (prs : List (Path × Path)) (fs : FS) (q : Path)
    (havoid : ∀ pr ∈ prs, pr.1 ≠ q ∧ pr.2 ≠ q) :
    FS.lookup (transfersFS prs fs) q = FS.lookup fs q := by
  induction prs generalizing fs with
  | nil => rfl
  | cons pr t ih =>
    obtain ⟨s, d⟩ := pr
    obtain ⟨a1, a2⟩ := havoid (s, d) (List.mem_cons_self _ _)
    rw [show transfersFS ((s, d) :: t) fs = transfersFS t (fsMove s d fs) from rfl,
      ih (fsMove s d fs) (fun x hx => havoid x (List.mem_cons_of_mem _ hx)),
      lookup_fsMove_of_ne s d q fs (fun h => a1 h.symm) (fun h => a2 h.symm)]

theorem transfersFS_lookup_dst (prs : List (Path × Path)) (fs : FS)
    (h : TransferOK fs prs) :
    ∀ pr ∈ prs, FS.lookup (transfersFS prs fs) pr.2 = FS.lookup fs pr.1 := by
  induction prs generalizing fs with
  | nil => intro pr hpr; simp at hpr
  | cons hd t ih =>
    obtain ⟨s, d⟩ := hd
    obtain ⟨h1, h2, h3, h4, h5⟩ := h
    intro pr hpr
    rcases List.mem_cons.1 hpr with heq | htail
    · subst heq
      obtain ⟨v, hv⟩ := Option.isSome_iff_exists.1 h1
      show FS.lookup (transfersFS ((s, d) :: t) fs) d = FS.lookup fs s
      rw [show transfersFS ((s, d) :: t) fs = transfersFS t (fsMove s d fs) from rfl,
        transfersFS_preserves_lookup t (fsMove s d fs) d
          (fun x hx => ⟨(h4 x hx).2.1, (h4 x hx).2.2.2⟩),
        lookup_fsMove_dst s d fs v hv, hv]
    · rw [show transfersFS ((s, d) :: t) fs = transfersFS t (fsMove s d fs) from rfl,
        ih (fsMove s d fs) (transferOK_tail_move fs s d t h4 h5) pr htail,
        lookup_fsMove_of_ne s d pr.1 fs (h4 pr htail).1 (h4 pr htail).2.1]

theorem undo_restores (prs : List (Path × Path)) (fs : FS) (h : TransferOK fs prs) :
    ∀ q, FS.lookup (undoFS prs (transfersFS prs fs)) q = FS.lookup fs q := by
  induction prs generalizing fs with
  | nil => intro q; rfl
  | cons hd t ih =>
    obtain ⟨s, d⟩ := hd
    obtain ⟨h1, h2, h3, h4, h5⟩ := h
    obtain ⟨v, hv⟩ := Option.isSome_iff_exists.1 h1
    intro q
    rw [show transfersFS ((s, d) :: t) fs = transfersFS t (fsMove s d fs) from rfl,
      undoFS_cons]
    have hA := ih (fsMove s d fs) (transferOK_tail_move fs s d t h4 h5)
    have hAd : FS.lookup (undoFS t (transfersFS t (fsMove s d fs))) d = some v := by
      rw [hA d]; exact lookup_fsMove_dst s d fs v hv
    by_cases hqs : q = s
    · rw [hqs, lookup_fsMove_dst d s (undoFS t (transfersFS t (fsMove s d fs))) v hAd, hv]
    · by_cases hqd : q = d
      · rw [hqd, lookup_fsMove_src d s (undoFS t (transfersFS t (fsMove s d fs))) v hAd
          (Ne.symm h3)]
        exact h2.symm
      · rw [lookup_fsMove_of_ne d s q _ hqd hqs, hA q,
          lookup_fsMove_of_ne s d q fs hqs hqd]

theorem doTransfers_ok (prs : List (Path × Path)) (fs : FS) (txn : TxnState)
    (h : TransferOK fs prs) :
    doTransfers false prs fs txn =
      .ok (transfersFS prs fs,
        { txn with postRollback :=
            txn.postRollback ++ prs.map (fun pr => FSAction.move pr.2 pr.1) }) := by
  induction prs generalizing fs txn with
  | nil => simp [doTransfers, transfersFS]
  | cons hd t ih =>
    obtain ⟨s, d⟩ := hd
    obtain ⟨h1, h2, h3, h4, h5⟩ := h
    obtain ⟨v, hv⟩ := Option.isSome_iff_exists.1 h1
    rw [show transfersFS ((s, d) :: t) fs = transfersFS t (fsMove s d fs) from rfl]
    have hT : transferOne false s d fs = .ok (fsMove s d fs) := by
      simp [transferOne, hv, fsMove]
    simp only [doTransfers, hT]
    rw [ih (fsMove s d fs) _ (transferOK_tail_move fs s d t h4 h5)]
    simp

theorem resolveRows_frame (tbl : List (Nat × String)) (crc : String → Nat) (fs : FS)
    (l : List (Path × TypeTag)) (txn : TxnState) (pwc : List (String × Nat × Nat))
    (txn1 : TxnState) (h : resolveRows tbl crc fs l txn = .ok (pwc, txn1)) :
    txn1.postCommit = txn.postCommit ∧ txn1.postRollback = txn.postRollback := by
  induction l generalizing txn pwc txn1 with
  | nil =>
    simp only [resolveRows, Except.ok.injEq, Prod.mk.injEq] at h
    rw [← h.2]
    exact ⟨rfl, rfl⟩
  | cons hd rest ih =>
    obtain ⟨path, tag⟩ := hd
    cases hs : str_to_id tbl tag txn with
    | error e =>
      simp only [resolveRows, hs] at h
      exact Except.noConfusion h
    | ok pt =>
      obtain ⟨pid, txnA⟩ := pt
      cases hc : compute_checksum crc fs path with
      | error e =>
        simp only [resolveRows, hs, hc] at h
        exact Except.noConfusion h
      | ok cs =>
        cases hr : resolveRows tbl crc fs rest txnA with
        | error e =>
          simp only [resolveRows, hs, hc, hr] at h
          exact Except.noConfusion h
        | ok pr =>
          obtain ⟨tl, txnB⟩ := pr
          simp only [resolveRows, hs, hc, hr, Except.ok.injEq, Prod.mk.injEq] at h
          obtain ⟨-, h2⟩ := h
          have hA : txnA.postCommit = txn.postCommit ∧
              txnA.postRollback = txn.postRollback := by
            cases tag with
            | id n =>
              simp only [str_to_id, Except.ok.injEq, Prod.mk.injEq] at hs
              rw [← hs.2]; exact ⟨rfl, rfl⟩
            | name s =>
              cases hf : (tbl.find? (fun r => r.2 = s)) with
              | none =>
                simp only [str_to_id, convert_to_id, hf] at hs
                exact Except.noConfusion hs
              | some r =>
                simp only [str_to_id, convert_to_id, hf, Except.ok.injEq,
                  Prod.mk.injEq] at hs
                rw [← hs.2]; exact ⟨rfl, rfl⟩
          obtain ⟨hB1, hB2⟩ := ih txnA tl txnB hr
          rw [← h2]
          exact ⟨hB1.trans hA.1, hB2.trans hA.2⟩

theorem fileAt_congr (a b : FS) (q : Path) (h : FS.lookup a q = FS.lookup b q) :
    fileAt a q = fileAt b q := by
  unfold fileAt; rw [h]

theorem fileAt_mkdir (fs : FS) (p q : Path) (hp : FS.existsP fs p = false) :
    fileAt (FS.insertP fs p ⟨true, ""⟩) q = fileAt fs q := by
  unfold fileAt
  rw [lookup_insertP]
  by_cases h : q = p
  · subst h
    have hnone : FS.lookup fs q = none := by
      cases hl : FS.lookup fs q with
      | none => rfl
      | some v =>
        unfold FS.existsP at hp
        rw [hl] at hp
        simp at hp
    simp [hnone]
  · simp [h]

theorem fsFilesEqual_of_forall (a b : FS) (h : ∀ q, fileAt a q = fileAt b q) :
    fsFilesEqual a b = true := by
  unfold fsFilesEqual
  rw [List.all_eq_true]
  intro p _
  rw [h p]
  exact beq_self_eq_true _

theorem zip_dest_pairs (filepaths : List (Path × TypeTag)) (f : Path → Path) :
    ((filepaths.zip (filepaths.map (fun pr => (f pr.1, pr.2)))).map
      (fun z => (z.1.1, z.2.1))) = filepaths.map (fun pr => (pr.1, f pr.1)) := by
  induction filepaths with
  | nil => rfl
  | cons hd t ih => simp only [List.map_cons, List.zip_cons_cons, ih]

theorem rollbackFS_eq_undoFS (t : TxnState) (prs : List (Path × Path)) (fs : FS)
    (h : t.postRollback = prs.map (fun pr => FSAction.move pr.2 pr.1)) :
    rollbackFS t fs = undoFS prs fs := by
  unfold rollbackFS undoFS
  rw [h]

theorem insertRowsStep_ok_inv (tbl : List (Nat × String)) (crc : String → Nat)
    (dd nid : Nat) (l : List (Path × TypeTag)) (fs : FS) (txn : TxnState)
    (out : InsertOut) (h : insertRowsStep tbl crc dd nid l fs txn = .ok out) :
    ∃ pwc txn1, resolveRows tbl crc fs l txn = .ok (pwc, txn1) ∧
      out.fs = fs ∧ out.txn.postRollback = txn1.postRollback ∧
      out.txn.postCommit = txn1.postCommit := by
  cases hres : resolveRows tbl crc fs l txn with
  | error e =>
    simp only [insertRowsStep, hres] at h
    exact Except.noConfusion h
  | ok res =>
    obtain ⟨pwc, txn1⟩ := res
    refine ⟨pwc, txn1, rfl, ?_⟩
    simp only [insertRowsStep, hres, Except.ok.injEq] at h
    rw [← h]
    exact ⟨rfl, rfl, rfl⟩

/-- Claim C2: for every list of files passed to `insert_filepaths` with
`move_files=True`, a rollback compensation moving the destination back to
the original source is registered for each file (in transfer order), so
that if the surrounding transaction rolls back, every transferred file is
returned to its source and the filesystem reverts to its pre-call state
(every file entry is restored; under a subdirectory layout the created
owner directory is the only possible residue, and it carries no file
data). -/
theorem insert_filepaths_rollback_restores
    (fpTypeTbl : List (Nat × String)) (ddTbl : List DataDirRow) (basedir : String)
    (crc : String → Nat) (filepaths : List (Path × TypeTag)) (obj_id : Nat)
    (table : String) (fs : FS) (nextId : Nat) (dd_id : Nat) (mp : String) (sd : Bool)
    (rest0 : List (Nat × String × Bool)) (out : InsertOut)
    (hm : get_mountpoint_subdir ddTbl basedir table false = (dd_id, mp, sd) :: rest0)
    (h1 : TransferOK
      (if sd ∧ FS.existsP fs (pjoin (pjoin basedir mp) (toString obj_id)) = false
        then FS.insertP fs (pjoin (pjoin basedir mp) (toString obj_id)) ⟨true, ""⟩ else fs)
      (filepaths.map (fun pr => (pr.1, destPath (pjoin basedir mp) sd obj_id pr.1))))
    (hout : insert_filepaths fpTypeTbl ddTbl basedir crc filepaths obj_id table
      true false fs TxnState.empty nextId = .ok out) :
    out.txn.postRollback = filepaths.map
      (fun pr => FSAction.move (destPath (pjoin basedir mp) sd obj_id pr.1) pr.1) ∧
    fsFilesEqual (rollbackFS out.txn out.fs) fs = true := by
  have hzip := zip_dest_pairs filepaths (destPath (pjoin basedir mp) sd obj_id)
  simp only [insert_filepaths, hm, if_true] at hout
  rw [hzip] at hout
  rw [doTransfers_ok _ _ _ h1] at hout
  obtain ⟨pwc, txn1, hres, hofs, hopr, hopc⟩ :=
    insertRowsStep_ok_inv _ _ _ _ _ _ _ _ hout
  obtain ⟨hfr1, hfr2⟩ := resolveRows_frame _ _ _ _ _ _ _ hres
  have hpr : out.txn.postRollback = filepaths.map
      (fun pr => FSAction.move (destPath (pjoin basedir mp) sd obj_id pr.1) pr.1) := by
    rw [hopr, hfr2]
    simp [TxnState.empty, List.map_map]
  refine ⟨hpr, ?_⟩
  rw [hofs, rollbackFS_eq_undoFS out.txn
    (filepaths.map (fun pr => (pr.1, destPath (pjoin basedir mp) sd obj_id pr.1))) _ (by
      rw [hpr, List.map_map]
      rfl)]
  apply fsFilesEqual_of_forall
  intro q
  refine (fileAt_congr _ _ q (undo_restores _ _ h1 q)).trans ?_
  by_cases hc : sd ∧ FS.existsP fs (pjoin (pjoin basedir mp) (toString obj_id)) = false
  · rw [if_pos hc]
    exact fileAt_mkdir fs _ q hc.2
  · rw [if_neg hc]

/-- Witness for C2: one file moved into a flat `raw_data` mountpoint and
restored by the rollback compensations. -/
theorem insert_filepaths_rollback_restores_witness :
    (InsertOut.mk [10] [⟨"3_a.txt", 1, 3, 1, 5⟩]
        [("/base/raw_data/3_a.txt", ⟨false, "AAA"⟩)]
        ⟨[Query.selectDataDirectory "raw_data", Query.insertFilepathRow "3_a.txt" 1 3 1 5],
          [], [FSAction.move "/base/raw_data/3_a.txt" "/up/a.txt"]⟩).txn.postRollback =
      ([("/up/a.txt", TypeTag.id 1)] : List (Path × TypeTag)).map
        (fun pr => FSAction.move (destPath (pjoin "/base" "/base/raw_data") false 3 pr.1) pr.1) ∧
    fsFilesEqual
      (rollbackFS
        (InsertOut.mk [10] [⟨"3_a.txt", 1, 3, 1, 5⟩]
          [("/base/raw_data/3_a.txt", ⟨false, "AAA"⟩)]
          ⟨[Query.selectDataDirectory "raw_data", Query.insertFilepathRow "3_a.txt" 1 3 1 5],
            [], [FSAction.move "/base/raw_data/3_a.txt" "/up/a.txt"]⟩).txn
        (InsertOut.mk [10] [⟨"3_a.txt", 1, 3, 1, 5⟩]
          [("/base/raw_data/3_a.txt", ⟨false, "AAA"⟩)]
          ⟨[Query.selectDataDirectory "raw_data", Query.insertFilepathRow "3_a.txt" 1 3 1 5],
            [], [FSAction.move "/base/raw_data/3_a.txt" "/up/a.txt"]⟩).fs)
      [("/up/a.txt", ⟨false, "AAA"⟩)] = true :=
  insert_filepaths_rollback_restores [(1, "raw_forward_seqs")]
    [⟨5, "raw_data", false, true, "raw_data"⟩] "/base" String.length
    [("/up/a.txt", TypeTag.id 1)] 3 "raw_data" [("/up/a.txt", ⟨false, "AAA"⟩)] 10
    5 "/base/raw_data" false []
    (InsertOut.mk [10] [⟨"3_a.txt", 1, 3, 1, 5⟩]
      [("/base/raw_data/3_a.txt", ⟨false, "AAA"⟩)]
      ⟨[Query.selectDataDirectory "raw_data", Query.insertFilepathRow "3_a.txt" 1 3 1 5],
        [], [FSAction.move "/base/raw_data/3_a.txt" "/up/a.txt"]⟩)
    (by decide) (by simp only [TransferOK]; decide) rfl

theorem resolveRows_int (tbl : List (Nat × String)) (crc : String → Nat) (fs : FS)
    (l : List (Path × Nat)) (txn : TxnState)
    (h : ∀ f ∈ l, isFile fs f.1 = true) :
    resolveRows tbl crc fs (l.map (fun f => (f.1, TypeTag.id f.2))) txn =
      .ok (l.map (fun f => (basename f.1, f.2, crc (contentAt fs f.1))), txn) := by
  induction l with
  | nil => rfl
  | cons hd t ih =>
    obtain ⟨path, n⟩ := hd
    have hf := h (path, n) (List.mem_cons_self _ _)
    obtain ⟨e, he, hdir⟩ : ∃ e, FS.lookup fs path = some e ∧ e.isDir = false := by
      unfold isFile at hf
      cases hl : FS.lookup fs path with
      | none => rw [hl] at hf; simp at hf
      | some e =>
        rw [hl] at hf
        simp only [Bool.not_eq_true'] at hf
        exact ⟨e, rfl, hf⟩
    have hcs : compute_checksum crc fs path = .ok (crc e.data) := by
      unfold compute_checksum
      rw [he]
      simp [hdir]
    have hca : contentAt fs path = e.data := by
      unfold contentAt
      rw [he]
      simp [hdir]
    simp only [List.map_cons, resolveRows, str_to_id, hcs,
      ih (fun f hf2 => h f (List.mem_cons_of_mem _ hf2)), hca]

/-- Claim C5: ingestion into a flat-layout mountpoint: each file is placed
at `root/obj_id_basename(source)`, one row per file is inserted carrying
the given integer type id and the checksum of the destination file
(which equals the checksum of the source content), and the generated
filepath ids come back in input order. -/
theorem insert_filepaths_flat_layout
    (fpTypeTbl : List (Nat × String)) (ddTbl : List DataDirRow) (basedir : String)
    (crc : String → Nat) (files : List (Path × Nat)) (obj_id : Nat)
    (table : String) (fs : FS) (nextId : Nat) (dd_id : Nat) (mp : String)
    (rest0 : List (Nat × String × Bool)) (out : InsertOut)
    (hm : get_mountpoint_subdir ddTbl basedir table false = (dd_id, mp, false) :: rest0)
    (h1 : TransferOK fs
      (files.map (fun f => (f.1, destPath (pjoin basedir mp) false obj_id f.1))))
    (hfile : ∀ f ∈ files, isFile fs f.1 = true)
    (hout : insert_filepaths fpTypeTbl ddTbl basedir crc
      (files.map (fun f => (f.1, TypeTag.id f.2))) obj_id table true false fs
      TxnState.empty nextId = .ok out) :
    out.ids = (List.range files.length).map (fun i => nextId + i) ∧
    out.rows = files.map (fun f =>
      ⟨basename (pjoin (pjoin basedir mp) (toString obj_id ++ "_" ++ basename f.1)),
        f.2, crc (contentAt out.fs
          (pjoin (pjoin basedir mp) (toString obj_id ++ "_" ++ basename f.1))), 1, dd_id⟩) ∧
    (files.map (fun f => pjoin (pjoin basedir mp) (toString obj_id ++ "_" ++ basename f.1))).all
      (fun d => FS.existsP out.fs d) = true ∧
    out.rows.map FilepathRow.checksum = files.map (fun f => crc (contentAt fs f.1)) := by
  have hcomp : (files.map (fun f => (f.1, TypeTag.id f.2))).map
      (fun pr => (pr.1, destPath (pjoin basedir mp) false obj_id pr.1)) =
      files.map (fun f => (f.1, destPath (pjoin basedir mp) false obj_id f.1)) := by
    simp [List.map_map]
  have hnew : (files.map (fun f => (f.1, TypeTag.id f.2))).map
      (fun pr => (destPath (pjoin basedir mp) false obj_id pr.1, pr.2)) =
      (files.map (fun f => (destPath (pjoin basedir mp) false obj_id f.1, f.2))).map
        (fun g => (g.1, TypeTag.id g.2)) := by
    simp [List.map_map]
  have hzip := zip_dest_pairs (files.map (fun f => (f.1, TypeTag.id f.2)))
    (destPath (pjoin basedir mp) false obj_id)
  simp only [insert_filepaths, hm, if_true] at hout
  rw [hzip, hcomp] at hout
  rw [show (if false = true ∧ FS.existsP fs (pjoin (pjoin basedir mp) (toString obj_id)) = false
      then FS.insertP fs (pjoin (pjoin basedir mp) (toString obj_id)) ⟨true, ""⟩ else fs) = fs
    by simp] at hout
  rw [doTransfers_ok _ _ _ h1] at hout
  have hdst := transfersFS_lookup_dst _ _ h1
  have hIsFile : ∀ g ∈ files.map (fun f =>
      (destPath (pjoin basedir mp) false obj_id f.1, f.2)),
      isFile (transfersFS (files.map (fun f =>
        (f.1, destPath (pjoin basedir mp) false obj_id f.1))) fs) g.1 = true := by
    intro g hg
    obtain ⟨f, hfm, rfl⟩ := List.mem_map.1 hg
    unfold isFile
    rw [hdst (f.1, destPath (pjoin basedir mp) false obj_id f.1)
      (List.mem_map_of_mem _ hfm)]
    have := hfile f hfm
    unfold isFile at this
    exact this
  have hcont : ∀ f ∈ files,
      contentAt (transfersFS (files.map (fun g =>
        (g.1, destPath (pjoin basedir mp) false obj_id g.1))) fs)
        (destPath (pjoin basedir mp) false obj_id f.1) = contentAt fs f.1 := by
    intro f hfm
    unfold contentAt
    rw [hdst (f.1, destPath (pjoin basedir mp) false obj_id f.1)
      (List.mem_map_of_mem _ hfm)]
  simp only [insertRowsStep, hnew, resolveRows_int _ _ _ _ _ hIsFile,
    Except.ok.injEq] at hout
  rw [← hout]
  refine ⟨by simp, ?_, ?_, ?_⟩
  · show List.map _ _ = _
    simp only [List.map_map]
    refine List.map_congr_left (fun f hfm => ?_)
    rfl
  · rw [List.all_eq_true]
    intro d hd
    obtain ⟨f, hfm, rfl⟩ := List.mem_map.1 hd
    show FS.existsP _ _ = true
    unfold FS.existsP
    rw [show pjoin (pjoin basedir mp) (toString obj_id ++ "_" ++ basename f.1) =
      destPath (pjoin basedir mp) false obj_id f.1 from rfl]
    rw [hdst (f.1, destPath (pjoin basedir mp) false obj_id f.1)
      (List.mem_map_of_mem _ hfm)]
    have := hfile f hfm
    unfold isFile at this
    cases hl : FS.lookup fs f.1 with
    | none => rw [hl] at this; simp at this
    | some e => simp
  · show List.map _ _ = _
    simp only [List.map_map]
    refine List.map_congr_left (fun f hfm => ?_)
    simp only [Function.comp]
    rw [hcont f hfm]

/-- Witness for C5: owner 3 ingests `a.txt` (type 1) and `b.txt` (type 2)
into the flat `raw_data` mountpoint; destinations are `3_a.txt`, `3_b.txt`
and ids come back in `[a, b]` order. -/
theorem insert_filepaths_flat_layout_witness :
    (InsertOut.mk [10, 11]
        [⟨"3_a.txt", 1, 3, 1, 5⟩, ⟨"3_b.txt", 2, 2, 1, 5⟩]
        [("/base/raw_data/3_b.txt", ⟨false, "BB"⟩),
         ("/base/raw_data/3_a.txt", ⟨false, "AAA"⟩)]
        ⟨[Query.selectDataDirectory "raw_data", Query.insertFilepathRow "3_a.txt" 1 3 1 5,
            Query.insertFilepathRow "3_b.txt" 2 2 1 5], [],
          [FSAction.move "/base/raw_data/3_a.txt" "/up/a.txt",
           FSAction.move "/base/raw_data/3_b.txt" "/up/b.txt"]⟩).ids =
      (List.range ([("/up/a.txt", 1), ("/up/b.txt", 2)] : List (Path × Nat)).length).map
        (fun i => 10 + i) ∧
    (InsertOut.mk [10, 11]
        [⟨"3_a.txt", 1, 3, 1, 5⟩, ⟨"3_b.txt", 2, 2, 1, 5⟩]
        [("/base/raw_data/3_b.txt", ⟨false, "BB"⟩),
         ("/base/raw_data/3_a.txt", ⟨false, "AAA"⟩)]
        ⟨[Query.selectDataDirectory "raw_data", Query.insertFilepathRow "3_a.txt" 1 3 1 5,
            Query.insertFilepathRow "3_b.txt" 2 2 1 5], [],
          [FSAction.move "/base/raw_data/3_a.txt" "/up/a.txt",
           FSAction.move "/base/raw_data/3_b.txt" "/up/b.txt"]⟩).rows =
      ([("/up/a.txt", 1), ("/up/b.txt", 2)] : List (Path × Nat)).map (fun f =>
        ⟨basename (pjoin (pjoin "/base" "/base/raw_data") (toString 3 ++ "_" ++ basename f.1)),
          f.2, String.length (contentAt
            (InsertOut.mk [10, 11]
              [⟨"3_a.txt", 1, 3, 1, 5⟩, ⟨"3_b.txt", 2, 2, 1, 5⟩]
              [("/base/raw_data/3_b.txt", ⟨false, "BB"⟩),
               ("/base/raw_data/3_a.txt", ⟨false, "AAA"⟩)]
              ⟨[Query.selectDataDirectory "raw_data",
                  Query.insertFilepathRow "3_a.txt" 1 3 1 5,
                  Query.insertFilepathRow "3_b.txt" 2 2 1 5], [],
                [FSAction.move "/base/raw_data/3_a.txt" "/up/a.txt",
                 FSAction.move "/base/raw_data/3_b.txt" "/up/b.txt"]⟩).fs
            (pjoin (pjoin "/base" "/base/raw_data") (toString 3 ++ "_" ++ basename f.1))),
          1, 5⟩) ∧
    (([("/up/a.txt", 1), ("/up/b.txt", 2)] : List (Path × Nat)).map (fun f =>
        pjoin (pjoin "/base" "/base/raw_data") (toString 3 ++ "_" ++ basename f.1))).all
      (fun d => FS.existsP
        (InsertOut.mk [10, 11]
          [⟨"3_a.txt", 1, 3, 1, 5⟩, ⟨"3_b.txt", 2, 2, 1, 5⟩]
          [("/base/raw_data/3_b.txt", ⟨false, "BB"⟩),
           ("/base/raw_data/3_a.txt", ⟨false, "AAA"⟩)]
          ⟨[Query.selectDataDirectory "raw_data", Query.insertFilepathRow "3_a.txt" 1 3 1 5,
              Query.insertFilepathRow "3_b.txt" 2 2 1 5], [],
            [FSAction.move "/base/raw_data/3_a.txt" "/up/a.txt",
             FSAction.move "/base/raw_data/3_b.txt" "/up/b.txt"]⟩).fs d) = true ∧
    (InsertOut.mk [10, 11]
        [⟨"3_a.txt", 1, 3, 1, 5⟩, ⟨"3_b.txt", 2, 2, 1, 5⟩]
        [("/base/raw_data/3_b.txt", ⟨false, "BB"⟩),
         ("/base/raw_data/3_a.txt", ⟨false, "AAA"⟩)]
        ⟨[Query.selectDataDirectory "raw_data", Query.insertFilepathRow "3_a.txt" 1 3 1 5,
            Query.insertFilepathRow "3_b.txt" 2 2 1 5], [],
          [FSAction.move "/base/raw_data/3_a.txt" "/up/a.txt",
           FSAction.move "/base/raw_data/3_b.txt" "/up/b.txt"]⟩).rows.map
      FilepathRow.checksum =
      ([("/up/a.txt", 1), ("/up/b.txt", 2)] : List (Path × Nat)).map
        (fun f => String.length (contentAt
          [("/up/a.txt", ⟨false, "AAA"⟩), ("/up/b.txt", ⟨false, "BB"⟩)] f.1)) :=
  insert_filepaths_flat_layout [(1, "raw_forward_seqs"), (2, "raw_barcodes")]
    [⟨5, "raw_data", false, true, "raw_data"⟩] "/base" String.length
    [("/up/a.txt", 1), ("/up/b.txt", 2)] 3 "raw_data"
    [("/up/a.txt", ⟨false, "AAA"⟩), ("/up/b.txt", ⟨false, "BB"⟩)] 10 5 "/base/raw_data" []
    (InsertOut.mk [10, 11]
      [⟨"3_a.txt", 1, 3, 1, 5⟩, ⟨"3_b.txt", 2, 2, 1, 5⟩]
      [("/base/raw_data/3_b.txt", ⟨false, "BB"⟩),
       ("/base/raw_data/3_a.txt", ⟨false, "AAA"⟩)]
      ⟨[Query.selectDataDirectory "raw_data", Query.insertFilepathRow "3_a.txt" 1 3 1 5,
          Query.insertFilepathRow "3_b.txt" 2 2 1 5], [],
        [FSAction.move "/base/raw_data/3_a.txt" "/up/a.txt",
         FSAction.move "/base/raw_data/3_b.txt" "/up/b.txt"]⟩)
    (by decide) (by simp only [TransferOK]; decide) (by decide) rfl

/-- Counterexample to C6: even for the empty input list `insert_filepaths`
issues the mountpoint-resolution query (`get_mountpoint` runs before the
input list is consulted), so the call does interact with the store; the
id list it returns is empty as claimed. -/
theorem insert_filepaths_empty_cex :
    ¬ ((insert_filepaths [] [⟨5, "raw_data", false, true, "raw_data"⟩] "/base"
        (fun s => s.length) [] 3 "raw_data" true false [] TxnState.empty 1).toOption.map
        (fun o => o.txn.queries) = some []) ∧
    (insert_filepaths [] [⟨5, "raw_data", false, true, "raw_data"⟩] "/base"
        (fun s => s.length) [] 3 "raw_data" true false [] TxnState.empty 1).toOption.map
        (fun o => (o.ids, o.txn.queries)) =
      some ([], [Query.selectDataDirectory "raw_data"]) := by
  exact ⟨by decide, by decide⟩

/-- Amended claim C6: for the empty input list `insert_filepaths` returns
an empty id list and inserts no rows, but it still issues the
mountpoint-resolution query of the category (and no other query). -/
theorem insert_filepaths_empty_input
    (fpTypeTbl : List (Nat × String)) (ddTbl : List DataDirRow) (basedir : String)
    (crc : String → Nat) (obj_id : Nat) (table : String) (move_files copy : Bool)
    (fs : FS) (txn : TxnState) (nextId : Nat) (dd_id : Nat) (mp : String) (sd : Bool)
    (rest0 : List (Nat × String × Bool)) (out : InsertOut)
    (hm : get_mountpoint_subdir ddTbl basedir table false = (dd_id, mp, sd) :: rest0)
    (hout : insert_filepaths fpTypeTbl ddTbl basedir crc [] obj_id table move_files copy
      fs txn nextId = .ok out) :
    out.ids = [] ∧ out.rows = [] ∧
    out.txn.queries = txn.queries ++ [Query.selectDataDirectory table] := by
  cases move_files with
  | true =>
    simp only [insert_filepaths, hm, if_true, List.map_nil, List.zip_nil_left,
      doTransfers, insertRowsStep, resolveRows, List.map_nil, List.append_nil,
      Except.ok.injEq] at hout
    rw [← hout]
    exact ⟨rfl, rfl, rfl⟩
  | false =>
    simp only [insert_filepaths, hm, Bool.false_eq_true, if_false, insertRowsStep,
      resolveRows, List.map_nil, List.append_nil, Except.ok.injEq] at hout
    rw [← hout]
    exact ⟨rfl, rfl, rfl⟩

/-- Witness for the amended C6 at a concrete empty ingestion call. -/
theorem insert_filepaths_empty_input_witness :
    (InsertOut.mk [] [] []
      ⟨[Query.selectDataDirectory "raw_data"], [], []⟩).ids = [] ∧
    (InsertOut.mk [] [] []
      ⟨[Query.selectDataDirectory "raw_data"], [], []⟩).rows = [] ∧
    (InsertOut.mk [] [] []
      ⟨[Query.selectDataDirectory "raw_data"], [], []⟩).txn.queries =
      TxnState.empty.queries ++ [Query.selectDataDirectory "raw_data"] :=
  insert_filepaths_empty_input [] [⟨5, "raw_data", false, true, "raw_data"⟩] "/base"
    (fun s => s.length) 3 "raw_data" true false [] TxnState.empty 1 5 "/base/raw_data"
    false []
    (InsertOut.mk [] [] [] ⟨[Query.selectDataDirectory "raw_data"], [], []⟩)
    (by decide) rfl

/-- A type tag whose lookup in the `filepath_type` table fails: a string
with no matching row (integer tags never need a lookup). -/
def isUnknownTag (tbl : List (Nat × String)) : TypeTag → Bool
  | .id _ => false
  | .name s => (tbl.find? (fun r => r.2 = s)).isNone

/-- The computation aborted with the lookup error. -/
def isLookupErr {α : Type} : Except QErr α → Bool
  | .error (.lookupError _) => true
  | _ => false

theorem isLookupErr_exists {α : Type} (x : Except QErr α) (h : isLookupErr x = true) :
    ∃ s, x = .error (.lookupError s) := by
  cases x with
  | ok v => simp [isLookupErr] at h
  | error e =>
    cases e with
    | lookupError s => exact ⟨s, rfl⟩
    | indexError => simp [isLookupErr] at h
    | fileError p => simp [isLookupErr] at h
    | nameError => simp [isLookupErr] at h
    | trashFolderError f => simp [isLookupErr] at h
    | folderIdError i => simp [isLookupErr] at h
    | studyFolderError s => simp [isLookupErr] at h
    | missingFileError p => simp [isLookupErr] at h

theorem resolveRows_unknown (tbl : List (Nat × String)) (crc : String → Nat) (fs : FS)
    (l : List (Path × TypeTag)) (txn : TxnState)
    (hex : ∀ pr ∈ l, (FS.lookup fs pr.1).isSome = true)
    (hbad : (l.map (fun pr => pr.2)).any (isUnknownTag tbl) = true) :
    isLookupErr (resolveRows tbl crc fs l txn) = true := by
  induction l generalizing txn with
  | nil => simp at hbad
  | cons hd t ih =>
    obtain ⟨path, tag⟩ := hd
    have hex0 := hex (path, tag) (List.mem_cons_self _ _)
    obtain ⟨e, he⟩ := Option.isSome_iff_exists.1 hex0
    have hcs : ∃ c, compute_checksum crc fs path = .ok c := by
      simp only [compute_checksum, he]
      cases e.isDir <;> exact ⟨_, rfl⟩
    obtain ⟨c, hc⟩ := hcs
    have hextail : ∀ pr ∈ t, (FS.lookup fs pr.1).isSome = true :=
      fun pr hpr => hex pr (List.mem_cons_of_mem _ hpr)
    cases tag with
    | id n =>
      have hbad2 : (t.map (fun pr => pr.2)).any (isUnknownTag tbl) = true := by
        simpa [isUnknownTag] using hbad
      have hih := ih txn hextail hbad2
      cases hr : resolveRows tbl crc fs t txn with
      | error e2 =>
        rw [hr] at hih
        simp only [resolveRows, str_to_id, hc, hr]
        exact hih
      | ok pr2 =>
        rw [hr] at hih
        simp [isLookupErr] at hih
    | name s =>
      cases hf : tbl.find? (fun r => r.2 = s) with
      | none =>
        simp only [resolveRows, str_to_id, convert_to_id, hf]
        rfl
      | some r =>
        have hbad2 : (t.map (fun pr => pr.2)).any (isUnknownTag tbl) = true := by
          simpa [isUnknownTag, hf] using hbad
        have hih := ih { txn with queries := txn.queries ++ [Query.selectTypeId s] }
          hextail hbad2
        cases hr : resolveRows tbl crc fs t
            { txn with queries := txn.queries ++ [Query.selectTypeId s] } with
        | error e2 =>
          rw [hr] at hih
          simp only [resolveRows, str_to_id, convert_to_id, hf, hc, hr]
          exact hih
        | ok pr2 =>
          rw [hr] at hih
          simp [isLookupErr] at hih

theorem transferOK_src_exists (fs : FS) (prs : List (Path × Path))
    (h : TransferOK fs prs) : ∀ pr ∈ prs, (FS.lookup fs pr.1).isSome = true := by
  induction prs with
  | nil => intro pr hpr; simp at hpr
  | cons hd t ih =>
    obtain ⟨s, d⟩ := hd
    obtain ⟨h1, h2, h3, h4, h5⟩ := h
    intro pr hpr
    rcases List.mem_cons.1 hpr with heq | htail
    · subst heq; exact h1
    · exact ih h5 pr htail

theorem insertRowsStep_lookupErr (tbl : List (Nat × String)) (crc : String → Nat)
    (dd nid : Nat) (l : List (Path × TypeTag)) (fs : FS) (txn : TxnState)
    (h : isLookupErr (resolveRows tbl crc fs l txn) = true) :
    isLookupErr (insertRowsStep tbl crc dd nid l fs txn) = true := by
  obtain ⟨s, hs⟩ := isLookupErr_exists _ h
  simp only [insertRowsStep, hs]
  rfl

/-- Claim C7: when some file's type tag is a string with no row in the
`filepath_type` table, the whole ingestion call aborts with the lookup
error — no insert statement is reached, so no filepath rows are created —
while integer tags pass through `str_to_id` untouched, with no lookup
query issued. -/
theorem insert_filepaths_unknown_type_tag
    (fpTypeTbl : List (Nat × String)) (ddTbl : List DataDirRow) (basedir : String)
    (crc : String → Nat) (filepaths : List (Path × TypeTag)) (obj_id : Nat)
    (table : String) (move_files : Bool) (fs : FS) (nextId : Nat) (dd_id : Nat)
    (mp : String) (sd : Bool) (rest0 : List (Nat × String × Bool)) (n : Nat)
    (txnA : TxnState)
    (hm : get_mountpoint_subdir ddTbl basedir table false = (dd_id, mp, sd) :: rest0)
    (h1 : TransferOK
      (if sd ∧ FS.existsP fs (pjoin (pjoin basedir mp) (toString obj_id)) = false
        then FS.insertP fs (pjoin (pjoin basedir mp) (toString obj_id)) ⟨true, ""⟩ else fs)
      (filepaths.map (fun pr => (pr.1, destPath (pjoin basedir mp) sd obj_id pr.1))))
    (hsrc : ∀ pr ∈ filepaths, (FS.lookup fs pr.1).isSome = true)
    (hbad : (filepaths.map (fun pr => pr.2)).any (isUnknownTag fpTypeTbl) = true) :
    isLookupErr (insert_filepaths fpTypeTbl ddTbl basedir crc filepaths obj_id table
      move_files false fs TxnState.empty nextId) = true ∧
    str_to_id fpTypeTbl (TypeTag.id n) txnA = .ok (n, txnA) := by
  refine ⟨?_, rfl⟩
  cases move_files with
  | false =>
    simp only [insert_filepaths, hm, Bool.false_eq_true, if_false]
    exact insertRowsStep_lookupErr _ _ _ _ _ _ _
      (resolveRows_unknown _ _ _ _ _ hsrc hbad)
  | true =>
    have hzip := zip_dest_pairs filepaths (destPath (pjoin basedir mp) sd obj_id)
    simp only [insert_filepaths, hm, if_true]
    rw [hzip, doTransfers_ok _ _ _ h1]
    apply insertRowsStep_lookupErr
    apply resolveRows_unknown
    · intro pr hpr
      obtain ⟨pr0, hpr0, rfl⟩ := List.mem_map.1 hpr
      have hmem : (pr0.1, destPath (pjoin basedir mp) sd obj_id pr0.1) ∈
          filepaths.map (fun pr => (pr.1, destPath (pjoin basedir mp) sd obj_id pr.1)) :=
        List.mem_map_of_mem _ hpr0
      show (FS.lookup _ (destPath (pjoin basedir mp) sd obj_id pr0.1)).isSome = true
      rw [transfersFS_lookup_dst _ _ h1 (pr0.1, destPath (pjoin basedir mp) sd obj_id pr0.1)
        hmem]
      exact transferOK_src_exists _ _ h1 _ hmem
    · have hsnd : (filepaths.map
          (fun pr => (destPath (pjoin basedir mp) sd obj_id pr.1, pr.2))).map
          (fun pr => pr.2) = filepaths.map (fun pr => pr.2) := by
        simp [List.map_map]
      rw [hsnd]
      exact hbad

/-- Witness for C7: a file tagged with the unknown string type aborts the
call with the lookup error; an integer tag is used as-is. -/
theorem insert_filepaths_unknown_type_tag_witness :
    isLookupErr (insert_filepaths [(1, "raw_forward_seqs")]
      [⟨5, "raw_data", false, true, "raw_data"⟩] "/base" (fun s => s.length)
      [("/up/a.txt", TypeTag.name "nope")] 3 "raw_data" true false
      [("/up/a.txt", ⟨false, "AAA"⟩)] TxnState.empty 10) = true ∧
    str_to_id [(1, "raw_forward_seqs")] (TypeTag.id 7) TxnState.empty =
      .ok (7, TxnState.empty) :=
  insert_filepaths_unknown_type_tag [(1, "raw_forward_seqs")]
    [⟨5, "raw_data", false, true, "raw_data"⟩] "/base" (fun s => s.length)
    [("/up/a.txt", TypeTag.name "nope")] 3 "raw_data" true
    [("/up/a.txt", ⟨false, "AAA"⟩)] 10 5 "/base/raw_data" false [] 7 TxnState.empty
    (by decide) (by simp only [TransferOK]; decide) (by decide) (by decide)

/-! ## OrphanCollector: `purge_filepaths` (src/qiita_db/util.py lines 719-780) -/

/-- A row of the query joining `qiita.filepath` with `qiita.filepath_type`:
`(filepath_id, filepath, filepath_type, data_directory_id)`. -/
structure FPRow where
  fpId : Nat
  filepath : String
  fpType : String
  ddId : Nat
deriving DecidableEq

/-- The referenced-id set (src lines 756-758): the union over the
discovered `(table, column)` pairs of the non-null values of each column;
`colVals` gives the stored non-null values of a column. -/
def referencedIds (pairs : List (String × String))
    (colVals : String → String → List Nat) : List Nat :=
  (pairs.map (fun pr => colVals pr.1 pr.2)).flatten

/-- Embedding of `get_mountpoint_path_by_id` (src lines 547-565): the
basedir-joined mountpoint of the data directory row with the given id;
an empty result makes `execute_fetchlast` fail. -/
def get_mountpoint_path_by_id (ddTbl : List DataDirRow) (basedir : String)
    (ddId : Nat) : Except QErr Path :=
  match ddTbl.find? (fun r => r.id = ddId) with
  | some r => .ok (pjoin basedir r.mountpoint)
  | none => .error .indexError

/-- Embedding of `_rm_files` (src lines 719-726): when the path exists, a
post-commit hook removing it (`rmtree` for a directory, `remove` for a
file) is registered; nothing happens otherwise, and nothing touches the
filesystem now. -/
def _rm_files (fs : FS) (txn : TxnState) (fp : Path) : TxnState :=
  match FS.lookup fs fp with
  | none => txn
  | some e =>
    { txn with postCommit := txn.postCommit ++
        [if e.isDir then FSAction.rmtree fp else FSAction.remove fp] }

/-- The result of `purge_filepaths`: ids of the rows whose delete
statements were enqueued, plus the transaction state. -/
structure PurgeOut where
  deleted : List Nat
  txn : TxnState
deriving DecidableEq

/-- The deletion loop of `purge_filepaths` (src lines 768-780): for each
unreferenced row, with `delete_files` the delete statement is enqueued,
the mountpoint is resolved, and the physical path is handed to
`_rm_files`; without `delete_files` the row is only printed. -/
def purgeLoop (ddTbl : List DataDirRow) (basedir : String) (fs : FS)
    (delete_files : Bool) : List FPRow → TxnState → Except QErr PurgeOut
  | [], txn => .ok ⟨[], txn⟩
  | r :: rest, txn =>
    if delete_files then
      match get_mountpoint_path_by_id ddTbl basedir r.ddId with
      | .error e => .error e
      | .ok mpPath =>
        let txn1 : TxnState := { txn with queries := txn.queries ++
          [Query.deleteFilepath r.fpId, Query.selectMountpointById r.ddId] }
        let fp := pjoin mpPath r.filepath
        let txn2 := _rm_files fs txn1 fp
        match purgeLoop ddTbl basedir fs delete_files rest txn2 with
        | .error e => .error e
        | .ok out => .ok ⟨r.fpId :: out.deleted, out.txn⟩
    else
      purgeLoop ddTbl basedir fs delete_files rest txn

/-- Embedding of `purge_filepaths` (src lines 729-780).  The foreign-key
catalog query yields `pairs`; the referenced-id set is their union.  When
at least one pair was discovered, the unreferenced-rows query is enqueued
and its result — the filepath rows whose id is in no referencing column —
drives the deletion loop.  When no pair is discovered (`union_str` empty)
that query is never issued, so the loop has no filepath rows to process
and nothing is deleted. -/
def purge_filepaths (pairs : List (String × String))
    (colVals : String → String → List Nat) (fpTbl : List FPRow)
    (ddTbl : List DataDirRow) (basedir : String) (fs : FS)
    (delete_files : Bool) (txn : TxnState) : Except QErr PurgeOut :=
  let txn0 : TxnState := { txn with queries := txn.queries ++ [Query.fkCatalog] }
  let referenced := referencedIds pairs colVals
  if pairs.isEmpty then
    purgeLoop ddTbl basedir fs delete_files [] txn0
  else
    let txn1 : TxnState := { txn0 with queries := txn0.queries ++ [Query.selectUnreferenced] }
    purgeLoop ddTbl basedir fs delete_files
      (fpTbl.filter (fun r => decide (¬ r.fpId ∈ referenced))) txn1

theorem _rm_files_frame (fs : FS) (txn : TxnState) (fp : Path) :
    (_rm_files fs txn fp).postRollback = txn.postRollback ∧
    (∀ a ∈ (_rm_files fs txn fp).postCommit, a ∈ txn.postCommit ∨ isRemoval a = true) ∧
    (∀ a ∈ txn.postCommit, a ∈ (_rm_files fs txn fp).postCommit) := by
  unfold _rm_files
  cases hl : FS.lookup fs fp with
  | none => exact ⟨rfl, fun a ha => Or.inl ha, fun a ha => ha⟩
  | some e =>
    refine ⟨rfl, ?_, ?_⟩
    · intro a ha
      rcases List.mem_append.1 ha with h1 | h2
      · exact Or.inl h1
      · right
        rcases List.mem_singleton.1 h2 with rfl
        cases e.isDir <;> simp [isRemoval]
    · intro a ha
      exact List.mem_append.2 (Or.inl ha)

theorem purgeLoop_ok_facts (ddTbl : List DataDirRow) (basedir : String) (fs : FS)
    (lst : List FPRow) (txn : TxnState) (out : PurgeOut)
    (h : purgeLoop ddTbl basedir fs true lst txn = .ok out) :
    out.deleted = lst.map (fun r => r.fpId) ∧
    out.txn.postRollback = txn.postRollback ∧
    (∀ a ∈ out.txn.postCommit, a ∈ txn.postCommit ∨ isRemoval a = true) ∧
    (∀ a ∈ txn.postCommit, a ∈ out.txn.postCommit) := by
  induction lst generalizing txn out with
  | nil =>
    simp only [purgeLoop, Except.ok.injEq] at h
    rw [← h]
    exact ⟨rfl, rfl, fun a ha => Or.inl ha, fun a ha => ha⟩
  | cons r rest ih =>
    simp only [purgeLoop, if_true] at h
    cases hmp : get_mountpoint_path_by_id ddTbl basedir r.ddId with
    | error e =>
      simp only [hmp] at h
      exact Except.noConfusion h
    | ok mpPath =>
      simp only [hmp] at h
      cases hrec : purgeLoop ddTbl basedir fs true rest
          (_rm_files fs
            { txn with queries := txn.queries ++
              [Query.deleteFilepath r.fpId, Query.selectMountpointById r.ddId] }
            (pjoin mpPath r.filepath)) with
      | error e =>
        simp only [hrec] at h
        exact Except.noConfusion h
      | ok out2 =>
        simp only [hrec, Except.ok.injEq] at h
        obtain ⟨hd1, hd2, hd3, hd4⟩ := ih _ _ hrec
        obtain ⟨hf1, hf2, hf3⟩ := _rm_files_frame fs
          { txn with queries := txn.queries ++
            [Query.deleteFilepath r.fpId, Query.selectMountpointById r.ddId] }
          (pjoin mpPath r.filepath)
        rw [← h]
        refine ⟨?_, ?_, ?_, ?_⟩
        · show r.fpId :: out2.deleted = _
          simp [hd1]
        · show out2.txn.postRollback = txn.postRollback
          rw [hd2, hf1]
        · intro a ha
          rcases hd3 a ha with h1 | h2
          · exact hf2 a h1
          · exact Or.inr h2
        · intro a ha
          exact hd4 a (hf3 a ha)

theorem purgeLoop_registers (ddTbl : List DataDirRow) (basedir : String) (fs : FS)
    (lst : List FPRow) (txn : TxnState) (out : PurgeOut) (r : FPRow) (d : DataDirRow)
    (c : String) (h : purgeLoop ddTbl basedir fs true lst txn = .ok out)
    (hr : r ∈ lst) (hd : ddTbl.find? (fun x => x.id = r.ddId) = some d)
    (hfile : FS.lookup fs (pjoin (pjoin basedir d.mountpoint) r.filepath) =
      some ⟨false, c⟩) :
    FSAction.remove (pjoin (pjoin basedir d.mountpoint) r.filepath) ∈
      out.txn.postCommit := by
  induction lst generalizing txn out with
  | nil => simp at hr
  | cons r0 rest ih =>
    simp only [purgeLoop, if_true] at h
    cases hmp : get_mountpoint_path_by_id ddTbl basedir r0.ddId with
    | error e =>
      simp only [hmp] at h
      exact Except.noConfusion h
    | ok mpPath =>
      simp only [hmp] at h
      cases hrec : purgeLoop ddTbl basedir fs true rest
          (_rm_files fs
            { txn with queries := txn.queries ++
              [Query.deleteFilepath r0.fpId, Query.selectMountpointById r0.ddId] }
            (pjoin mpPath r0.filepath)) with
      | error e =>
        simp only [hrec] at h
        exact Except.noConfusion h
      | ok out2 =>
        simp only [hrec, Except.ok.injEq] at h
        rcases List.mem_cons.1 hr with heq | htail
        · subst heq
          have hmp2 : mpPath = pjoin basedir d.mountpoint := by
            unfold get_mountpoint_path_by_id at hmp
            rw [hd] at hmp
            exact (Except.ok.inj hmp).symm
          subst hmp2
          have hmem : FSAction.remove (pjoin (pjoin basedir d.mountpoint) r.filepath) ∈
              (_rm_files fs
                { txn with queries := txn.queries ++
                  [Query.deleteFilepath r.fpId, Query.selectMountpointById r.ddId] }
                (pjoin (pjoin basedir d.mountpoint) r.filepath)).postCommit := by
            unfold _rm_files
            rw [hfile]
            exact List.mem_append.2 (Or.inr (by simp))
          obtain ⟨-, -, -, hd4⟩ := purgeLoop_ok_facts _ _ _ _ _ _ hrec
          rw [← h]
          exact hd4 _ hmem
        · have := ih _ _ hrec htail
          rw [← h]
          exact this

/-- Claim C1 (the transaction hook semantics are modelled from the spec):
for an unreferenced filepath row processed by
`purge_filepaths(delete_files=True)` whose physical file exists, the
file's removal is registered only as a post-commit hook — no rollback
compensation and no immediate filesystem change — so after a rollback the
file still exists and only after a successful commit is it gone. -/
theorem purge_filepaths_deferred_deletion
    (pairs : List (String × String)) (colVals : String → String → List Nat)
    (fpTbl : List FPRow) (ddTbl : List DataDirRow) (basedir : String) (fs : FS)
    (r : FPRow) (d : DataDirRow) (c : String) (out : PurgeOut)
    (hp : pairs ≠ [])
    (hr : r ∈ fpTbl)
    (hunref : ¬ r.fpId ∈ referencedIds pairs colVals)
    (hd : ddTbl.find? (fun x => x.id = r.ddId) = some d)
    (hfile : FS.lookup fs (pjoin (pjoin basedir d.mountpoint) r.filepath) =
      some ⟨false, c⟩)
    (hout : purge_filepaths pairs colVals fpTbl ddTbl basedir fs true
      TxnState.empty = .ok out) :
    FSAction.remove (pjoin (pjoin basedir d.mountpoint) r.filepath) ∈
      out.txn.postCommit ∧
    out.txn.postRollback = [] ∧
    FS.existsP (rollbackFS out.txn fs)
      (pjoin (pjoin basedir d.mountpoint) r.filepath) = true ∧
    FS.existsP (commitFS out.txn fs)
      (pjoin (pjoin basedir d.mountpoint) r.filepath) = false := by
  have hne : pairs.isEmpty = false := by
    cases pairs with
    | nil => exact absurd rfl hp
    | cons a t => rfl
  simp only [purge_filepaths, hne, Bool.false_eq_true, if_false] at hout
  have hrf : r ∈ fpTbl.filter
      (fun x => decide (¬ x.fpId ∈ referencedIds pairs colVals)) :=
    List.mem_filter.2 ⟨hr, by simpa using hunref⟩
  have hreg := purgeLoop_registers _ _ _ _ _ _ r d c hout hrf hd hfile
  obtain ⟨hdel, hpr, hpc, -⟩ := purgeLoop_ok_facts _ _ _ _ _ _ hout
  have hpr0 : out.txn.postRollback = [] := by rw [hpr]; rfl
  refine ⟨hreg, hpr0, ?_, ?_⟩
  · unfold rollbackFS
    rw [hpr0]
    unfold FS.existsP
    show (FS.lookup fs (pjoin (pjoin basedir d.mountpoint) r.filepath)).isSome = true
    rw [hfile]
    rfl
  · unfold commitFS FS.existsP
    rw [foldl_remove_mem_gone _ _ _ hreg ?hall]
    · rfl
    · intro a ha
      rcases hpc a ha with h1 | h2
      · exact absurd h1 (by simp [TxnState.empty])
      · exact h2

/-- Counterexample to C3: when the foreign-key catalog yields no
`(table, column)` pair at all, the unreferenced-rows query is never
issued, so row 7 — present and referenced by nothing — is not removed,
although the claim requires its removal. -/
theorem purge_filepaths_no_pairs_cex :
    (purge_filepaths [] (fun _ _ => []) [⟨7, "f.txt", "raw_forward_seqs", 1⟩]
      [⟨1, "mp", false, true, "raw_data"⟩] "/b"
      [("/b/mp/f.txt", ⟨false, "x"⟩)] true TxnState.empty).toOption.map
      PurgeOut.deleted = some [] ∧
    ¬ (7 ∈ referencedIds [] (fun _ _ => [])) := ⟨by decide, by decide⟩

/-- Amended claim C3: provided the foreign-key catalog discovers at least
one referencing `(table, column)` pair, `purge_filepaths(delete_files=True)`
enqueues the delete of a filepath row exactly when its id occurs in none
of the discovered columns, and for such an unreferenced row whose physical
file exists the file removal is registered as a post-commit hook; a row
referenced from any link column is never removed.  With an empty catalog
no row is removed. -/
theorem purge_filepaths_orphan_iff
    (pairs : List (String × String)) (colVals : String → String → List Nat)
    (fpTbl : List FPRow) (ddTbl : List DataDirRow) (basedir : String) (fs : FS)
    (txn : TxnState) (r : FPRow) (d : DataDirRow) (c : String) (out : PurgeOut)
    (hp : pairs ≠ [])
    (hr : r ∈ fpTbl)
    (hd : ddTbl.find? (fun x => x.id = r.ddId) = some d)
    (hfile : FS.lookup fs (pjoin (pjoin basedir d.mountpoint) r.filepath) =
      some ⟨false, c⟩)
    (hout : purge_filepaths pairs colVals fpTbl ddTbl basedir fs true txn = .ok out) :
    (r.fpId ∈ out.deleted ↔ ¬ r.fpId ∈ referencedIds pairs colVals) ∧
    (¬ r.fpId ∈ referencedIds pairs colVals →
      FSAction.remove (pjoin (pjoin basedir d.mountpoint) r.filepath) ∈
        out.txn.postCommit) := by
  have hne : pairs.isEmpty = false := by
    cases pairs with
    | nil => exact absurd rfl hp
    | cons a t => rfl
  simp only [purge_filepaths, hne, Bool.false_eq_true, if_false] at hout
  obtain ⟨hdel, -, -, -⟩ := purgeLoop_ok_facts _ _ _ _ _ _ hout
  constructor
  · rw [hdel]
    constructor
    · intro hmem
      obtain ⟨row, hrow, hid⟩ := List.mem_map.1 hmem
      obtain ⟨-, hdec⟩ := List.mem_filter.1 hrow
      rw [← hid]
      simpa using hdec
    · intro hunref
      exact List.mem_map.2 ⟨r,
        List.mem_filter.2 ⟨hr, by simpa using hunref⟩, rfl⟩
  · intro hunref
    exact purgeLoop_registers _ _ _ _ _ _ r d c hout
      (List.mem_filter.2 ⟨hr, by simpa using hunref⟩) hd hfile

/-- Witness for C1: with rows 8, 9 referenced and row 7 orphaned, the
removal of `f7` is registered only post-commit; it survives rollback and
disappears on commit. -/
theorem purge_filepaths_deferred_deletion_witness :
    FSAction.remove (pjoin (pjoin "/b" "mp") "f7") ∈
      (PurgeOut.mk [7]
        ⟨[Query.fkCatalog, Query.selectUnreferenced, Query.deleteFilepath 7,
            Query.selectMountpointById 1], [FSAction.remove "/b/mp/f7"], []⟩).txn.postCommit ∧
    (PurgeOut.mk [7]
      ⟨[Query.fkCatalog, Query.selectUnreferenced, Query.deleteFilepath 7,
          Query.selectMountpointById 1], [FSAction.remove "/b/mp/f7"], []⟩).txn.postRollback
      = [] ∧
    FS.existsP (rollbackFS
      (PurgeOut.mk [7]
        ⟨[Query.fkCatalog, Query.selectUnreferenced, Query.deleteFilepath 7,
            Query.selectMountpointById 1], [FSAction.remove "/b/mp/f7"], []⟩).txn
      [("/b/mp/f7", ⟨false, "x"⟩), ("/b/mp/f8", ⟨false, "y"⟩), ("/b/mp/f9", ⟨false, "z"⟩)])
      (pjoin (pjoin "/b" "mp") "f7") = true ∧
    FS.existsP (commitFS
      (PurgeOut.mk [7]
        ⟨[Query.fkCatalog, Query.selectUnreferenced, Query.deleteFilepath 7,
            Query.selectMountpointById 1], [FSAction.remove "/b/mp/f7"], []⟩).txn
      [("/b/mp/f7", ⟨false, "x"⟩), ("/b/mp/f8", ⟨false, "y"⟩), ("/b/mp/f9", ⟨false, "z"⟩)])
      (pjoin (pjoin "/b" "mp") "f7") = false :=
  purge_filepaths_deferred_deletion [("artifact_filepath", "filepath_id")]
    (fun _ _ => [8, 9])
    [⟨7, "f7", "raw", 1⟩, ⟨8, "f8", "raw", 1⟩, ⟨9, "f9", "raw", 1⟩]
    [⟨1, "mp", false, true, "raw_data"⟩] "/b"
    [("/b/mp/f7", ⟨false, "x"⟩), ("/b/mp/f8", ⟨false, "y"⟩), ("/b/mp/f9", ⟨false, "z"⟩)]
    ⟨7, "f7", "raw", 1⟩ ⟨1, "mp", false, true, "raw_data"⟩ "x"
    (PurgeOut.mk [7]
      ⟨[Query.fkCatalog, Query.selectUnreferenced, Query.deleteFilepath 7,
          Query.selectMountpointById 1], [FSAction.remove "/b/mp/f7"], []⟩)
    (by decide) (by decide) (by decide) (by decide) (by decide) rfl

/-- Witness for the amended C3 at the same three-row store: row 7 is
deleted (it is unreferenced) and its file removal is registered; by the
same theorem rows 8 and 9, being referenced, can never enter the deleted
list. -/
theorem purge_filepaths_orphan_iff_witness :
    ((7 ∈ (PurgeOut.mk [7]
        ⟨[Query.fkCatalog, Query.selectUnreferenced, Query.deleteFilepath 7,
            Query.selectMountpointById 1], [FSAction.remove "/b/mp/f7"], []⟩).deleted) ↔
      ¬ 7 ∈ referencedIds [("artifact_filepath", "filepath_id")] (fun _ _ => [8, 9])) ∧
    (¬ 7 ∈ referencedIds [("artifact_filepath", "filepath_id")] (fun _ _ => [8, 9]) →
      FSAction.remove (pjoin (pjoin "/b" "mp") "f7") ∈
        (PurgeOut.mk [7]
          ⟨[Query.fkCatalog, Query.selectUnreferenced, Query.deleteFilepath 7,
              Query.selectMountpointById 1],
            [FSAction.remove "/b/mp/f7"], []⟩).txn.postCommit) :=
  purge_filepaths_orphan_iff [("artifact_filepath", "filepath_id")]
    (fun _ _ => [8, 9])
    [⟨7, "f7", "raw", 1⟩, ⟨8, "f8", "raw", 1⟩, ⟨9, "f9", "raw", 1⟩]
    [⟨1, "mp", false, true, "raw_data"⟩] "/b"
    [("/b/mp/f7", ⟨false, "x"⟩), ("/b/mp/f8", ⟨false, "y"⟩), ("/b/mp/f9", ⟨false, "z"⟩)]
    TxnState.empty ⟨7, "f7", "raw", 1⟩ ⟨1, "mp", false, true, "raw_data"⟩ "x"
    (PurgeOut.mk [7]
      ⟨[Query.fkCatalog, Query.selectUnreferenced, Query.deleteFilepath 7,
          Query.selectMountpointById 1], [FSAction.remove "/b/mp/f7"], []⟩)
    (by decide) (by decide) (by decide) (by decide) rfl

/-! ## ReleaseBundler: `generate_biom_and_metadata_release`
(src/qiita_db/util.py lines 1561-1637) -/

/-- `needle` occurs as a contiguous run inside `hay` (the Python `in`
operator on strings, on character lists so the kernel can evaluate it). -/
def listInfix (needle : List Char) : List Char → Bool
  | [] => needle.isEmpty
  | c :: t => needle.isPrefixOf (c :: t) || listInfix needle t

/-- Python `needle in s` for strings. -/
def containsSub (needle s : String) : Bool := listInfix needle.data s.data

/-- Model of `os.path.relpath(p, base)` for the paths of this system:
strip the base directory prefix; other paths are returned unchanged. -/
def relpath (p base : String) : String :=
  if strIsPrefixOf (base ++ "/") p then String.mk (p.data.drop (base.data.length + 1))
  else p

/-- A preparation template: `pt.get_filepaths()` returns `(id, filepath)`
tuples, latest first. -/
structure PrepTemplate where
  fps : List (Nat × String)
deriving DecidableEq

/-- The processing parameters of a parent artifact: its command name and
the stringified `values['length']` used for the "Trimming" annotation. -/
structure ParentInfo where
  cmdName : String
  lengthParam : String
deriving DecidableEq

/-- A BIOM artifact of a study as the bundler sees it:
`processing_parameters.command.name` (none when `processing_parameters`
is `None`, which skips the artifact), the parents' parameters, the
artifact's `(id, filepath, filepath_type)` triples and its linked
preparation templates. -/
structure BiomArtifact where
  aid : Nat
  procCmd : Option String
  parents : List ParentInfo
  fps : List (Nat × String × String)
  preps : List PrepTemplate
deriving DecidableEq

/-- A study: the sample template filepaths (latest first) and its BIOM
artifacts. -/
structure Study where
  sampleFps : List (Nat × String)
  bioms : List BiomArtifact
deriving DecidableEq

/-- The human-readable provenance label (src lines 1596-1605): one piece
per parent, `"cmd @ length"` for a Trimming parent and `"cmd, parent-cmd"`
otherwise, joined with `", "`. -/
def joinSep (sep : String) : List String → String
  | [] => ""
  | [x] => x
  | x :: y :: t => x ++ sep ++ joinSep sep (y :: t)

def humanCmd (cmdName : String) (parents : List ParentInfo) : String :=
  joinSep ", " (parents.map (fun p =>
    if p.cmdName = "Trimming" then cmdName ++ " @ " ++ p.lengthParam
    else cmdName ++ ", " ++ p.cmdName))

/-- The preparation filepath selection loop (src lines 1613-1616):
`prep_fp` is assigned each filepath in turn and the loop breaks at the
first one not containing "qiime"; if none qualifies the loop ends with
`prep_fp` holding the last filepath, and an empty list leaves `prep_fp`
unassigned (a `NameError`, modelled as `none`). -/
def pickPrep : List String → Option String
  | [] => none
  | [x] => some x
  | x :: y :: t => if containsSub "qiime" x then pickPrep (y :: t) else some x

/-- One manifest row: `(biom_fp, sample_fp, prep_fp, qiita_artifact_id,
command)`. -/
structure ReleaseRow where
  biomFp : String
  sampleFp : String
  prepFp : String
  artifactId : Nat
  command : String
deriving DecidableEq

/-- Error-propagating map (each Python loop iteration may raise). -/
def mapE {α β : Type} (f : α → Except QErr β) : List α → Except QErr (List β)
  | [] => .ok []
  | a :: t =>
    match f a with
    | .error e => .error e
    | .ok b =>
      match mapE f t with
      | .error e => .error e
      | .ok bs => .ok (b :: bs)

/-- The row built for one (qualifying output file, preparation) pair
(src lines 1613-1618). -/
def prepRow (bdir sampleFp : String) (aid : Nat) (cmd fpRel : String)
    (pt : PrepTemplate) : Except QErr ReleaseRow :=
  match pickPrep (pt.fps.map (fun f => f.2)) with
  | none => .error .nameError
  | some p => .ok ⟨fpRel, sampleFp, relpath p bdir, aid, cmd⟩

/-- The qualifying output files of an artifact (src lines 1607-1610):
filepaths of type `biom` not containing "only-16s", recorded relative to
the base directory. -/
def qualifyingFps (bdir : String) (a : BiomArtifact) : List String :=
  (a.fps.filter (fun f => f.2.2 = "biom" ∧ containsSub "only-16s" f.2.1 = false)).map
    (fun f => relpath f.2.1 bdir)

/-- The manifest rows produced for one artifact (src lines 1588-1618): an
artifact without processing parameters is skipped; otherwise one row per
qualifying output file per linked preparation. -/
def artifactRows (bdir sampleFp : String) (a : BiomArtifact) :
    Except QErr (List ReleaseRow) :=
  match a.procCmd with
  | none => .ok []
  | some cmdName =>
    (mapE (fun fpRel => mapE (prepRow bdir sampleFp a.aid (humanCmd cmdName a.parents) fpRel)
      a.preps) (qualifyingFps bdir a)).map List.flatten

/-- The manifest rows of one study (src lines 1584-1618): the sample
template filepath is the first tuple's path, relative to the base
directory; an empty filepath list makes the `[0]` subscript fail. -/
def studyRows (bdir : String) (s : Study) : Except QErr (List ReleaseRow) :=
  match s.sampleFps with
  | [] => .error .indexError
  | sf :: _ =>
    (mapE (artifactRows bdir (relpath sf.2 bdir)) s.bioms).map List.flatten

/-- All manifest rows of the release (src lines 1583-1618). -/
def releaseData (bdir : String) (studies : List Study) :
    Except QErr (List ReleaseRow) :=
  (mapE (studyRows bdir) studies).map List.flatten

/-- The header line written first (src line 1629). -/
def manifestHeader : String :=
  "biom_fp\tsample_fp\tprep_fp\tqiita_artifact_id\tcommand\n"

/-- One data line of the manifest (src lines 1630-1632). -/
def rowLine (r : ReleaseRow) : String :=
  r.biomFp ++ "\t" ++ r.sampleFp ++ "\t" ++ r.prepFp ++ "\t" ++
    toString r.artifactId ++ "\t" ++ r.command ++ "\n"

/-- The manifest: the header followed by one line per data row, with no
deduplication. -/
def manifestLines (rows : List ReleaseRow) : List String :=
  manifestHeader :: rows.map rowLine

/-- The archive entries (src lines 1633-1635): per row the three files,
stored under their base-relative names. -/
def archiveEntries (bdir : String) (rows : List ReleaseRow) :
    List (Path × String) :=
  (rows.map (fun r => [(pjoin bdir r.biomFp, r.biomFp),
    (pjoin bdir r.sampleFp, r.sampleFp), (pjoin bdir r.prepFp, r.prepFp)])).flatten

/-- The number of (artifact, qualifying output file, preparation) triples
of the release. -/
def pairingCount (bdir : String) (studies : List Study) : Nat :=
  (studies.map (fun s => (s.bioms.map (fun a =>
    match a.procCmd with
    | none => 0
    | some _ => (qualifyingFps bdir a).length * a.preps.length)).sum)).sum

theorem find?_pickPrep (l : List String) (p : String)
    (h : l.find? (fun fp => !containsSub "qiime" fp) = some p) :
    pickPrep l = some p := by
  induction l with
  | nil => simp at h
  | cons x t ih =>
    cases hc : containsSub "qiime" x with
    | false =>
      rw [List.find?_cons_of_pos _ (by simp [hc])] at h
      cases t with
      | nil => exact h
      | cons y t2 => simpa [pickPrep, hc] using h
    | true =>
      rw [List.find?_cons_of_neg _ (by simp [hc])] at h
      cases t with
      | nil => simp at h
      | cons y t2 =>
        rw [show pickPrep (x :: y :: t2) = pickPrep (y :: t2) by simp [pickPrep, hc]]
        exact ih h

/-- Claim C8: the preparation-metadata filepath recorded for an
(artifact, preparation) pairing is the first of the preparation's
filepaths whose path does not contain "qiime", whenever at least one such
filepath exists (`find?` succeeding is exactly that hypothesis). -/
theorem release_prep_fp_first_non_qiime
    (bdir sampleFp : String) (aid : Nat) (cmd fpRel : String) (pt : PrepTemplate)
    (p : String)
    (hfind : (pt.fps.map (fun f => f.2)).find?
      (fun fp => !containsSub "qiime" fp) = some p) :
    prepRow bdir sampleFp aid cmd fpRel pt =
      .ok ⟨fpRel, sampleFp, relpath p bdir, aid, cmd⟩ := by
  unfold prepRow
  rw [find?_pickPrep _ _ hfind]

/-- Witness for C8: among a qiime-flavored and a plain preparation file,
the plain one is recorded. -/
theorem release_prep_fp_first_non_qiime_witness :
    prepRow "/b" "sample.txt" 42 "Pick OTUs" "b1.biom"
      ⟨[(1, "/b/templates/prep_qiime_1.txt"), (2, "/b/templates/prep_1.txt")]⟩ =
      .ok ⟨"b1.biom", "sample.txt", relpath "/b/templates/prep_1.txt" "/b", 42,
        "Pick OTUs"⟩ :=
  release_prep_fp_first_non_qiime "/b" "sample.txt" 42 "Pick OTUs" "b1.biom"
    ⟨[(1, "/b/templates/prep_qiime_1.txt"), (2, "/b/templates/prep_1.txt")]⟩
    "/b/templates/prep_1.txt" (by decide)

theorem pickPrep_mem (l : List String) (p : String) (h : pickPrep l = some p) :
    p ∈ l := by
  induction l with
  | nil => simp [pickPrep] at h
  | cons x t ih =>
    cases t with
    | nil =>
      simp only [pickPrep, Option.some.injEq] at h
      simp [h]
    | cons y t2 =>
      by_cases hc : containsSub "qiime" x = true
      · rw [show pickPrep (x :: y :: t2) = pickPrep (y :: t2) by
          simp [pickPrep, hc]] at h
        exact List.mem_cons_of_mem _ (ih h)
      · rw [show pickPrep (x :: y :: t2) = some x by simp [pickPrep, hc]] at h
        simp [← Option.some.inj h]

theorem mapE_ok_length {α β : Type} (f : α → Except QErr β) (l : List α)
    (bs : List β) (h : mapE f l = .ok bs) : bs.length = l.length := by
  induction l generalizing bs with
  | nil =>
    simp only [mapE, Except.ok.injEq] at h
    rw [← h]
    rfl
  | cons a t ih =>
    cases hf : f a with
    | error e =>
      simp only [mapE, hf] at h
      exact Except.noConfusion h
    | ok b =>
      cases hr : mapE f t with
      | error e =>
        simp only [mapE, hf, hr] at h
        exact Except.noConfusion h
      | ok bs2 =>
        simp only [mapE, hf, hr, Except.ok.injEq] at h
        rw [← h]
        simp [ih bs2 hr]

theorem mapE_ok_mem {α β : Type} (f : α → Except QErr β) (l : List α)
    (bs : List β) (h : mapE f l = .ok bs) (b : β) (hb : b ∈ bs) :
    ∃ a ∈ l, f a = .ok b := by
  induction l generalizing bs with
  | nil =>
    simp only [mapE, Except.ok.injEq] at h
    rw [← h] at hb
    simp at hb
  | cons a t ih =>
    cases hf : f a with
    | error e =>
      simp only [mapE, hf] at h
      exact Except.noConfusion h
    | ok b0 =>
      cases hr : mapE f t with
      | error e =>
        simp only [mapE, hf, hr] at h
        exact Except.noConfusion h
      | ok bs2 =>
        simp only [mapE, hf, hr, Except.ok.injEq] at h
        rw [← h] at hb
        rcases List.mem_cons.1 hb with heq | htail
        · exact ⟨a, List.mem_cons_self _ _, heq ▸ hf⟩
        · obtain ⟨a2, ha2, hfa2⟩ := ih bs2 hr htail
          exact ⟨a2, List.mem_cons_of_mem _ ha2, hfa2⟩

theorem mapE_forall2 {α β : Type} (f : α → Except QErr β) (l : List α)
    (bs : List β) (h : mapE f l = .ok bs) :
    List.Forall₂ (fun a b => f a = .ok b) l bs := by
  induction l generalizing bs with
  | nil =>
    simp only [mapE, Except.ok.injEq] at h
    rw [← h]
    exact List.Forall₂.nil
  | cons a t ih =>
    cases hf : f a with
    | error e =>
      simp only [mapE, hf] at h
      exact Except.noConfusion h
    | ok b0 =>
      cases hr : mapE f t with
      | error e =>
        simp only [mapE, hf, hr] at h
        exact Except.noConfusion h
      | ok bs2 =>
        simp only [mapE, hf, hr, Except.ok.injEq] at h
        rw [← h]
        exact List.Forall₂.cons hf (ih bs2 hr)

theorem flatten_length_const {α : Type} (lss : List (List α)) (k : Nat)
    (h : ∀ x ∈ lss, x.length = k) : lss.flatten.length = lss.length * k := by
  induction lss with
  | nil => simp
  | cons x t ih =>
    simp only [List.flatten_cons, List.length_append, List.length_cons]
    rw [h x (List.mem_cons_self _ _), ih (fun y hy => h y (List.mem_cons_of_mem _ hy))]
    ring

theorem forall2_map_eq {α β : Type} (R : α → β → Prop) (l : List α) (bs : List β)
    (g : β → Nat) (g2 : α → Nat) (h : List.Forall₂ R l bs)
    (hg : ∀ a b, R a b → g b = g2 a) : bs.map g = l.map g2 := by
  induction h with
  | nil => rfl
  | cons hr ht ih => simp [hg _ _ hr, ih]

/-- The per-artifact row count: zero for an artifact without processing
parameters, otherwise one row per (qualifying file, preparation) pair. -/
def artifactRowCount (bdir : String) (a : BiomArtifact) : Nat :=
  match a.procCmd with
  | none => 0
  | some _ => (qualifyingFps bdir a).length * a.preps.length

theorem artifactRows_length (bdir sampleFp : String) (a : BiomArtifact)
    (br : List ReleaseRow) (h : artifactRows bdir sampleFp a = .ok br) :
    br.length = artifactRowCount bdir a := by
  unfold artifactRows at h
  cases hp : a.procCmd with
  | none =>
    simp only [hp, Except.ok.injEq] at h
    rw [← h]
    simp [artifactRowCount, hp]
  | some cmd =>
    simp only [hp] at h
    cases hm : mapE (fun fpRel => mapE
        (prepRow bdir sampleFp a.aid (humanCmd cmd a.parents) fpRel) a.preps)
        (qualifyingFps bdir a) with
    | error e =>
      rw [hm] at h
      exact Except.noConfusion h
    | ok lss =>
      rw [hm] at h
      simp only [Except.map, Except.ok.injEq] at h
      rw [← h, flatten_length_const lss a.preps.length
        (fun x hx => by
          obtain ⟨fpRel, -, hfx⟩ := mapE_ok_mem _ _ _ hm x hx
          exact mapE_ok_length _ _ _ hfx),
        mapE_ok_length _ _ _ hm]
      simp [artifactRowCount, hp]

/-- The per-study row count. -/
def studyRowCount (bdir : String) (s : Study) : Nat :=
  (s.bioms.map (artifactRowCount bdir)).sum

theorem studyRows_length (bdir : String) (s : Study) (b : List ReleaseRow)
    (h : studyRows bdir s = .ok b) : b.length = studyRowCount bdir s := by
  unfold studyRows at h
  cases hsf : s.sampleFps with
  | nil =>
    simp only [hsf] at h
    exact Except.noConfusion h
  | cons sf rest =>
    simp only [hsf] at h
    cases ha : mapE (artifactRows bdir (relpath sf.2 bdir)) s.bioms with
    | error e =>
      rw [ha] at h
      exact Except.noConfusion h
    | ok al =>
      rw [ha] at h
      simp only [Except.map, Except.ok.injEq] at h
      rw [← h, List.length_flatten, forall2_map_eq _ _ _ _ (artifactRowCount bdir)
        (mapE_forall2 _ _ _ ha) (fun a b hab => artifactRows_length _ _ _ _ hab)]
      rfl

theorem releaseData_length (bdir : String) (studies : List Study)
    (rows : List ReleaseRow) (h : releaseData bdir studies = .ok rows) :
    rows.length = pairingCount bdir studies := by
  unfold releaseData at h
  cases hm : mapE (studyRows bdir) studies with
  | error e =>
    rw [hm] at h
    exact Except.noConfusion h
  | ok sl =>
    rw [hm] at h
    simp only [Except.map, Except.ok.injEq] at h
    rw [← h, List.length_flatten, forall2_map_eq _ _ _ _ (studyRowCount bdir)
      (mapE_forall2 _ _ _ hm) (fun a b hab => studyRows_length _ _ _ hab)]
    rfl

/-- Every stored path of an artifact: its own filepaths plus the
filepaths of its linked preparations. -/
def artifactPaths (a : BiomArtifact) : List String :=
  a.fps.map (fun f => f.2.1) ++ (a.preps.map (fun pt => pt.fps.map (fun f => f.2))).flatten

/-- Every stored path of a study. -/
def studyPaths (s : Study) : List String :=
  s.sampleFps.map (fun f => f.2) ++ (s.bioms.map artifactPaths).flatten

/-- Every stored path of a release selection. -/
def allPaths (studies : List Study) : List String := (studies.map studyPaths).flatten

theorem mem_allPaths_artifact (studies : List Study) (s : Study) (a : BiomArtifact)
    (q : String) (hs : s ∈ studies) (ha : a ∈ s.bioms) (hq : q ∈ artifactPaths a) :
    q ∈ allPaths studies :=
  List.mem_flatten.2 ⟨studyPaths s, List.mem_map_of_mem _ hs,
    List.mem_append.2 (Or.inr (List.mem_flatten.2
      ⟨artifactPaths a, List.mem_map_of_mem _ ha, hq⟩))⟩

theorem mem_allPaths_sample (studies : List Study) (s : Study) (q : String)
    (hs : s ∈ studies) (hq : q ∈ s.sampleFps.map (fun f => f.2)) :
    q ∈ allPaths studies :=
  List.mem_flatten.2 ⟨studyPaths s, List.mem_map_of_mem _ hs,
    List.mem_append.2 (Or.inl hq)⟩

theorem releaseData_fields_relative (bdir : String) (studies : List Study)
    (rows : List ReleaseRow) (h : releaseData bdir studies = .ok rows)
    (hnp : ∀ p ∈ allPaths studies,
      strIsPrefixOf (bdir ++ "/") (relpath p bdir) = false) :
    rows.all (fun r => !strIsPrefixOf (bdir ++ "/") r.biomFp &&
      !strIsPrefixOf (bdir ++ "/") r.sampleFp &&
      !strIsPrefixOf (bdir ++ "/") r.prepFp) = true := by
  rw [List.all_eq_true]
  intro r hr
  unfold releaseData at h
  cases hm : mapE (studyRows bdir) studies with
  | error e =>
    rw [hm] at h
    exact Except.noConfusion h
  | ok sl =>
    rw [hm] at h
    simp only [Except.map, Except.ok.injEq] at h
    rw [← h] at hr
    obtain ⟨b, hb, hrb⟩ := List.mem_flatten.1 hr
    obtain ⟨s, hsS, hsr⟩ := mapE_ok_mem _ _ _ hm b hb
    unfold studyRows at hsr
    cases hsf : s.sampleFps with
    | nil =>
      simp only [hsf] at hsr
      exact Except.noConfusion hsr
    | cons sf rest =>
      simp only [hsf] at hsr
      cases ha : mapE (artifactRows bdir (relpath sf.2 bdir)) s.bioms with
      | error e =>
        rw [ha] at hsr
        exact Except.noConfusion hsr
      | ok al =>
        rw [ha] at hsr
        simp only [Except.map, Except.ok.injEq] at hsr
        rw [← hsr] at hrb
        obtain ⟨ab, hab, hrab⟩ := List.mem_flatten.1 hrb
        obtain ⟨a, haS, har⟩ := mapE_ok_mem _ _ _ ha ab hab
        unfold artifactRows at har
        cases hpc : a.procCmd with
        | none =>
          simp only [hpc, Except.ok.injEq] at har
          rw [← har] at hrab
          simp at hrab
        | some cmd =>
          simp only [hpc] at har
          cases hq : mapE (fun fpRel => mapE
              (prepRow bdir (relpath sf.2 bdir) a.aid (humanCmd cmd a.parents) fpRel)
              a.preps) (qualifyingFps bdir a) with
          | error e =>
            rw [hq] at har
            exact Except.noConfusion har
          | ok lss =>
            rw [hq] at har
            simp only [Except.map, Except.ok.injEq] at har
            rw [← har] at hrab
            obtain ⟨x, hx, hrx⟩ := List.mem_flatten.1 hrab
            obtain ⟨fpRel, hfq, hfx⟩ := mapE_ok_mem _ _ _ hq x hx
            obtain ⟨pt, hptS, hprep⟩ := mapE_ok_mem _ _ _ hfx r hrx
            unfold prepRow at hprep
            cases hpick : pickPrep (pt.fps.map (fun f => f.2)) with
            | none =>
              rw [hpick] at hprep
              exact Except.noConfusion hprep
            | some p =>
              rw [hpick] at hprep
              simp only [Except.ok.injEq] at hprep
              have hbiom : strIsPrefixOf (bdir ++ "/") fpRel = false := by
                obtain ⟨f, hfm, hfe⟩ := List.mem_map.1 hfq
                rw [← hfe]
                exact hnp _ (mem_allPaths_artifact studies s a f.2.1 hsS haS
                  (List.mem_append.2 (Or.inl
                    (List.mem_map_of_mem _ (List.mem_filter.1 hfm).1))))
              have hsample : strIsPrefixOf (bdir ++ "/") (relpath sf.2 bdir) = false :=
                hnp _ (mem_allPaths_sample studies s sf.2 hsS
                  (List.mem_map_of_mem _ (by rw [hsf]; exact List.mem_cons_self _ _)))
              have hprepfp : strIsPrefixOf (bdir ++ "/") (relpath p bdir) = false :=
                hnp _ (mem_allPaths_artifact studies s a p hsS haS
                  (List.mem_append.2 (Or.inr (List.mem_flatten.2
                    ⟨pt.fps.map (fun f => f.2), List.mem_map_of_mem _ hptS,
                      pickPrep_mem _ _ hpick⟩))))
              rw [← hprep]
              simp [hbiom, hsample, hprepfp]

/-- Counterexample to C9: a single study with one artifact that owns two
qualifying biom output files and one linked preparation produces two
manifest rows for the single (artifact, preparation) pairing, not one. -/
theorem release_manifest_pairing_cex :
    (releaseData "/b" [⟨[(1, "/b/sample.txt")],
      [⟨42, some "Pick OTUs", [],
        [(1, "/b/b1.biom", "biom"), (2, "/b/b2.biom", "biom")],
        [⟨[(3, "/b/prep.txt")]⟩]⟩]⟩]).toOption.map List.length = some 2 ∧
    ¬ ((releaseData "/b" [⟨[(1, "/b/sample.txt")],
      [⟨42, some "Pick OTUs", [],
        [(1, "/b/b1.biom", "biom"), (2, "/b/b2.biom", "biom")],
        [⟨[(3, "/b/prep.txt")]⟩]⟩]⟩]).toOption.map List.length = some 1) :=
  ⟨by decide, by decide⟩

/-- Amended claim C9: the manifest's first line is exactly the
tab-separated header `biom_fp, sample_fp, prep_fp, qiita_artifact_id,
command`, followed — with no deduplication — by one data row per
(artifact, qualifying output file, preparation) triple (an artifact with
several qualifying biom files fans out to several rows per preparation);
the archive holds three entries per row, and every path recorded in the
manifest is relative to the storage base directory. -/
theorem release_manifest_structure (bdir : String) (studies : List Study)
    (rows : List ReleaseRow)
    (hout : releaseData bdir studies = .ok rows)
    (hnp : ∀ p ∈ allPaths studies,
      strIsPrefixOf (bdir ++ "/") (relpath p bdir) = false) :
    (manifestLines rows).head? = some manifestHeader ∧
    (manifestLines rows).length = rows.length + 1 ∧
    rows.length = pairingCount bdir studies ∧
    (archiveEntries bdir rows).length = rows.length * 3 ∧
    rows.all (fun r => !strIsPrefixOf (bdir ++ "/") r.biomFp &&
      !strIsPrefixOf (bdir ++ "/") r.sampleFp &&
      !strIsPrefixOf (bdir ++ "/") r.prepFp) = true := by
  refine ⟨rfl, by simp [manifestLines], releaseData_length _ _ _ hout, ?_, ?_⟩
  · unfold archiveEntries
    rw [flatten_length_const _ 3 (fun x hx => ?_), List.length_map]
    obtain ⟨r, -, hre⟩ := List.mem_map.1 hx
    rw [← hre]
    rfl
  · exact releaseData_fields_relative _ _ _ hout hnp

/-- Witness for the amended C9 at a one-study release: header first, one
row for the single (artifact, biom file, preparation) triple, three
archive entries, all paths base-relative. -/
theorem release_manifest_structure_witness :
    (manifestLines [⟨"processed/table.biom", "templates/1_sample.txt",
      "templates/prep_1.txt", 42, "Deblur @ 100"⟩]).head? = some manifestHeader ∧
    (manifestLines [⟨"processed/table.biom", "templates/1_sample.txt",
      "templates/prep_1.txt", 42, "Deblur @ 100"⟩]).length =
      ([⟨"processed/table.biom", "templates/1_sample.txt",
        "templates/prep_1.txt", 42, "Deblur @ 100"⟩] : List ReleaseRow).length + 1 ∧
    ([⟨"processed/table.biom", "templates/1_sample.txt",
      "templates/prep_1.txt", 42, "Deblur @ 100"⟩] : List ReleaseRow).length =
      pairingCount "/b" [⟨[(1, "/b/templates/1_sample.txt")],
        [⟨42, some "Deblur", [⟨"Trimming", "100"⟩],
          [(1, "/b/processed/table.biom", "biom"), (2, "/b/processed/log.txt", "log")],
          [⟨[(3, "/b/templates/prep_qiime_1.txt"),
            (4, "/b/templates/prep_1.txt")]⟩]⟩]⟩] ∧
    (archiveEntries "/b" [⟨"processed/table.biom", "templates/1_sample.txt",
      "templates/prep_1.txt", 42, "Deblur @ 100"⟩]).length =
      ([⟨"processed/table.biom", "templates/1_sample.txt",
        "templates/prep_1.txt", 42, "Deblur @ 100"⟩] : List ReleaseRow).length * 3 ∧
    ([⟨"processed/table.biom", "templates/1_sample.txt",
      "templates/prep_1.txt", 42, "Deblur @ 100"⟩] : List ReleaseRow).all
      (fun r => !strIsPrefixOf ("/b" ++ "/") r.biomFp &&
        !strIsPrefixOf ("/b" ++ "/") r.sampleFp &&
        !strIsPrefixOf ("/b" ++ "/") r.prepFp) = true :=
  release_manifest_structure "/b"
    [⟨[(1, "/b/templates/1_sample.txt")],
      [⟨42, some "Deblur", [⟨"Trimming", "100"⟩],
        [(1, "/b/processed/table.biom", "biom"), (2, "/b/processed/log.txt", "log")],
        [⟨[(3, "/b/templates/prep_qiime_1.txt"), (4, "/b/templates/prep_1.txt")]⟩]⟩]⟩]
    [⟨"processed/table.biom", "templates/1_sample.txt", "templates/prep_1.txt", 42,
      "Deblur @ 100"⟩]
    rfl (by decide)

/-! ## `move_upload_files_to_trash` (src/qiita_db/util.py lines 463-507) -/

/-- The dict comprehension over `get_mountpoint("uploads", retrieve_all=True)`
(src line 480): on duplicate folder ids the later entry wins. -/
def lookupDict (l : List (Nat × String)) (k : Nat) : Option String :=
  (l.reverse.find? (fun pr => pr.1 = k)).map (fun pr => pr.2)

/-- Model of `os.makedirs` for the single created directory entry. -/
def makedirs (fs : FS) (p : Path) : FS := FS.insertP fs p ⟨true, ""⟩

/-- One iteration of the loop of `move_upload_files_to_trash` (src lines
482-507): the guards run in source order — the literal name `trash`, an
unknown folder id, a missing study upload folder, then (after creating
the trash directory if needed) a missing source file; only when all pass
is the file renamed into the trash folder.  The returned filesystem keeps
whatever mutations happened before an error, as the Python exceptions
do. -/
def trashStep (folders : List (Nat × String)) (study_id : Nat) (fs : FS)
    (e : Nat × String) : FS × Option QErr :=
  if e.2 = "trash" then (fs, some (.trashFolderError e.2))
  else
    match lookupDict folders e.1 with
    | none => (fs, some (.folderIdError e.1))
    | some folder =>
      let foldername := pjoin folder (toString study_id)
      if FS.existsP fs foldername = false then (fs, some (.studyFolderError study_id))
      else
        let trashpath := pjoin foldername "trash"
        let fs1 := if FS.existsP fs trashpath = true then fs else makedirs fs trashpath
        let fullpath := pjoin foldername e.2
        let newFullpath := pjoin (pjoin foldername "trash") e.2
        if FS.existsP fs1 fullpath = false then (fs1, some (.missingFileError fullpath))
        else (fsMove fullpath newFullpath fs1, none)

/-- The loop over `files_to_move`: stops at the first error, keeping the
filesystem as mutated so far. -/
def processTrashFiles (folders : List (Nat × String)) (study_id : Nat) :
    List (Nat × String) → FS → FS × Option QErr
  | [], fs => (fs, none)
  | e :: rest, fs =>
    match trashStep folders study_id fs e with
    | (fs1, some err) => (fs1, some err)
    | (fs1, none) => processTrashFiles folders study_id rest fs1

/-- Embedding of `move_upload_files_to_trash` (src lines 463-507). -/
def move_upload_files_to_trash (ddTbl : List DataDirRow) (basedir : String)
    (study_id : Nat) (files_to_move : List (Nat × String)) (fs : FS) :
    FS × Option QErr :=
  processTrashFiles (get_mountpoint ddTbl basedir "uploads" true) study_id
    files_to_move fs

theorem processTrashFiles_append (folders : List (Nat × String)) (sid : Nat)
    (pre rest : List (Nat × String)) (fs fs1 : FS)
    (h : processTrashFiles folders sid pre fs = (fs1, none)) :
    processTrashFiles folders sid (pre ++ rest) fs =
      processTrashFiles folders sid rest fs1 := by
  induction pre generalizing fs with
  | nil =>
    simp only [processTrashFiles, Prod.mk.injEq] at h
    rw [List.nil_append, h.1]
  | cons e t ih =>
    cases hstep : trashStep folders sid fs e with
    | mk fsx ox =>
      cases ox with
      | some err =>
        simp only [processTrashFiles, hstep, Prod.mk.injEq] at h
        exact absurd h.2 (by simp)
      | none =>
        simp only [processTrashFiles, hstep] at h
        rw [List.cons_append]
        simp only [processTrashFiles, hstep]
        exact ih fsx h

/-- Claim C10: once the entries before it succeed, a requested filename
equal to the literal `trash` makes `move_upload_files_to_trash` raise the
database error before renaming that file (the trash folder can never be
moved into itself); likewise an unknown folder id, a missing study upload
folder, or a missing source file each abort with the database error
instead of performing the rename — only the conditional creation of the
trash directory may have happened in the last case. -/
theorem move_upload_files_to_trash_guards
    (ddTbl : List DataDirRow) (basedir : String) (study_id : Nat)
    (pre post : List (Nat × String)) (fid : Nat) (fname : String) (fs fs1 : FS)
    (hpre : processTrashFiles (get_mountpoint ddTbl basedir "uploads" true) study_id
      pre fs = (fs1, none)) :
    (fname = "trash" →
      move_upload_files_to_trash ddTbl basedir study_id (pre ++ (fid, fname) :: post) fs
        = (fs1, some (QErr.trashFolderError "trash"))) ∧
    (fname ≠ "trash" →
      lookupDict (get_mountpoint ddTbl basedir "uploads" true) fid = none →
      move_upload_files_to_trash ddTbl basedir study_id (pre ++ (fid, fname) :: post) fs
        = (fs1, some (QErr.folderIdError fid))) ∧
    (fname ≠ "trash" →
      ∀ mp, lookupDict (get_mountpoint ddTbl basedir "uploads" true) fid = some mp →
      FS.existsP fs1 (pjoin mp (toString study_id)) = false →
      move_upload_files_to_trash ddTbl basedir study_id (pre ++ (fid, fname) :: post) fs
        = (fs1, some (QErr.studyFolderError study_id))) ∧
    (fname ≠ "trash" →
      ∀ mp, lookupDict (get_mountpoint ddTbl basedir "uploads" true) fid = some mp →
      FS.existsP fs1 (pjoin mp (toString study_id)) = true →
      FS.existsP
        (if FS.existsP fs1 (pjoin (pjoin mp (toString study_id)) "trash") = true
          then fs1 else makedirs fs1 (pjoin (pjoin mp (toString study_id)) "trash"))
        (pjoin (pjoin mp (toString study_id)) fname) = false →
      move_upload_files_to_trash ddTbl basedir study_id (pre ++ (fid, fname) :: post) fs
        = ((if FS.existsP fs1 (pjoin (pjoin mp (toString study_id)) "trash") = true
            then fs1 else makedirs fs1 (pjoin (pjoin mp (toString study_id)) "trash")),
          some (QErr.missingFileError (pjoin (pjoin mp (toString study_id)) fname)))) := by
  have hfold : move_upload_files_to_trash ddTbl basedir study_id
      (pre ++ (fid, fname) :: post) fs =
      processTrashFiles (get_mountpoint ddTbl basedir "uploads" true) study_id
        ((fid, fname) :: post) fs1 := by
    unfold move_upload_files_to_trash
    exact processTrashFiles_append _ _ _ _ _ _ hpre
  refine ⟨?_, ?_, ?_, ?_⟩
  · intro h1
    rw [hfold]
    have hstep : trashStep (get_mountpoint ddTbl basedir "uploads" true) study_id fs1
        (fid, fname) = (fs1, some (QErr.trashFolderError "trash")) := by
      subst h1
      simp [trashStep]
    simp only [processTrashFiles, hstep]
  · intro h1 h2
    rw [hfold]
    have hstep : trashStep (get_mountpoint ddTbl basedir "uploads" true) study_id fs1
        (fid, fname) = (fs1, some (QErr.folderIdError fid)) := by
      simp [trashStep, h1, h2]
    simp only [processTrashFiles, hstep]
  · intro h1 mp h2 h3
    rw [hfold]
    have hstep : trashStep (get_mountpoint ddTbl basedir "uploads" true) study_id fs1
        (fid, fname) = (fs1, some (QErr.studyFolderError study_id)) := by
      simp [trashStep, h1, h2, h3]
    simp only [processTrashFiles, hstep]
  · intro h1 mp h2 h3 h4
    rw [hfold]
    have hstep : trashStep (get_mountpoint ddTbl basedir "uploads" true) study_id fs1
        (fid, fname) =
        ((if FS.existsP fs1 (pjoin (pjoin mp (toString study_id)) "trash") = true
            then fs1 else makedirs fs1 (pjoin (pjoin mp (toString study_id)) "trash")),
          some (QErr.missingFileError (pjoin (pjoin mp (toString study_id)) fname))) := by
      simp [trashStep, h1, h2, h3, h4]
    simp only [processTrashFiles, hstep]

/-- Witness for C10 at a concrete uploads table and an empty prefix:
erasing the name `trash` (among the other guards) aborts with the
database error. -/
theorem move_upload_files_to_trash_guards_witness :
    ("trash" = "trash" →
      move_upload_files_to_trash [⟨1, "uploads1", false, true, "uploads"⟩] "/b" 9
        ([] ++ (1, "trash") :: []) [] = ([], some (QErr.trashFolderError "trash"))) ∧
    ("trash" ≠ "trash" →
      lookupDict (get_mountpoint [⟨1, "uploads1", false, true, "uploads"⟩] "/b"
        "uploads" true) 1 = none →
      move_upload_files_to_trash [⟨1, "uploads1", false, true, "uploads"⟩] "/b" 9
        ([] ++ (1, "trash") :: []) [] = ([], some (QErr.folderIdError 1))) ∧
    ("trash" ≠ "trash" →
      ∀ mp, lookupDict (get_mountpoint [⟨1, "uploads1", false, true, "uploads"⟩] "/b"
        "uploads" true) 1 = some mp →
      FS.existsP [] (pjoin mp (toString 9)) = false →
      move_upload_files_to_trash [⟨1, "uploads1", false, true, "uploads"⟩] "/b" 9
        ([] ++ (1, "trash") :: []) [] = ([], some (QErr.studyFolderError 9))) ∧
    ("trash" ≠ "trash" →
      ∀ mp, lookupDict (get_mountpoint [⟨1, "uploads1", false, true, "uploads"⟩] "/b"
        "uploads" true) 1 = some mp →
      FS.existsP [] (pjoin mp (toString 9)) = true →
      FS.existsP
        (if FS.existsP ([] : FS) (pjoin (pjoin mp (toString 9)) "trash") = true
          then ([] : FS) else makedirs [] (pjoin (pjoin mp (toString 9)) "trash"))
        (pjoin (pjoin mp (toString 9)) "trash") = false →
      move_upload_files_to_trash [⟨1, "uploads1", false, true, "uploads"⟩] "/b" 9
        ([] ++ (1, "trash") :: []) [] =
        ((if FS.existsP ([] : FS) (pjoin (pjoin mp (toString 9)) "trash") = true
            then ([] : FS) else makedirs [] (pjoin (pjoin mp (toString 9)) "trash")),
          some (QErr.missingFileError (pjoin (pjoin mp (toString 9)) "trash")))) :=
  move_upload_files_to_trash_guards [⟨1, "uploads1", false, true, "uploads"⟩] "/b" 9
    [] [] 1 "trash" [] [] rfl

end Qiita
